import Mathlib

/-!
A shallow embedding, in Lean 4, of the core of the `voxel-engine` repository:
world storage (`world.ts`), the greedy mesher with ambient occlusion
(`greedy-mesh.ts`), axis-separated AABB collision (`collision.ts`), DDA voxel
raycasting (`raycast.ts`) and the physics tick (`movement.ts` variant with
`physicsTick`).  TypeScript numbers that hold exact values in the algorithms
are modelled as `ℚ` (rationals), block ids as `Nat`, grid coordinates as `Int`.
The `Uint8Array` backing store of `World` is a `List Nat` whose writes truncate
modulo 256 and whose out-of-range writes are no-ops, matching typed-array
semantics.  The unbounded `while` loop of the raycaster is given an explicit
fuel parameter; all statements about it are quantified over the fuel.
Real-valued powers such as `GROUND_DRAG ** t` (transcendental over ℚ) are
passed to the physics tick as parameters, constrained in the theorems to the
range they actually occupy (`0 < drag ≤ 1`, `t ≥ 0` gives `0 < drag ** t ≤ 1`).
-/

namespace Voxel

/-! ### Block.ts: string-typed blocks used by the mesher and the collider -/

/-- `export const NOTHING: BlockType = 'NOTHING'` from `Block.ts`. -/
def NOTHING : String := "NOTHING"

/-- `export const DIRT: BlockType = 'DIRT'` from `Block.ts`. -/
def DIRT : String := "DIRT"

/-- The `Block` class of `Block.ts`: a wrapper around a block-type string. -/
structure Block where
  type : String
deriving DecidableEq, Repr

/-- The raw `blocks[y][z][x]` triple-array lookup (`?? null` included): a total
function to `Option Block`, `none` standing for a missing entry / `null`. -/
def BlockArray : Type := Int → Int → Int → Option Block

/-- Grid dimensions `[dimX, dimY, dimZ]`. -/
structure Dims where
  x : Nat
  y : Nat
  z : Nat
deriving DecidableEq, Repr

/-! ### block.ts: numeric block ids and the block registry -/

/-- `export const AIR: BlockId = 0` from `block.ts`. -/
def AIR : Nat := 0

/-- `export const MARBLE: BlockId = 1` from `block.ts`. -/
def MARBLE : Nat := 1

/-- `BlockProperties` from `block.ts`. -/
structure BlockProperties where
  name : String
  solid : Bool
deriving DecidableEq, Repr

/-- The process-wide `blockRegistry` after its two `register` calls:
slot 0 is air (not solid), slot 1 is marble (solid). -/
def blockRegistry : List (Option BlockProperties) :=
  [some ⟨"air", false⟩, some ⟨"marble", true⟩]

/-- `BlockRegistry.isSolid`: `this.blocks[id]?.solid ?? false`. -/
def registryIsSolid (id : Nat) : Bool :=
  ((blockRegistry.getD id none).map (·.solid)).getD false

/-! ### world.ts: the `World` class over a flat `Uint8Array` -/

/-- The `World` class of `world.ts`.  `blocks` is the flat `Uint8Array`
(row-major, `y` outermost), modelled as a `List Nat` of byte values. -/
structure World where
  blocks : List Nat
  sizeX : Nat
  sizeY : Nat
  sizeZ : Nat
  blockSize : ℚ
deriving DecidableEq, Repr

/-- `World.index`: `y * sizeZ * sizeX + z * sizeX + x`. -/
def World.index (w : World) (x y z : Int) : Int :=
  y * w.sizeZ * w.sizeX + z * w.sizeX + x

/-- The out-of-range test shared by `getBlock` and `setBlock`. -/
def World.outOfRange (w : World) (x y z : Int) : Bool :=
  x < 0 || x ≥ w.sizeX || y < 0 || y ≥ w.sizeY || z < 0 || z ≥ w.sizeZ

/-- `World.getBlock`: returns `AIR` out of range, else reads the flat array
(`?? AIR` covers a backing array shorter than the grid). -/
def World.getBlock (w : World) (x y z : Int) : Nat :=
  if w.outOfRange x y z then AIR
  else w.blocks.getD (w.index x y z).toNat AIR

/-- `World.setBlock`: `false` out of range, else writes and returns `true`.
The write truncates the id modulo 256 (Uint8Array element conversion) and is a
no-op past the end of the backing array (typed-array out-of-range store). -/
def World.setBlock (w : World) (x y z : Int) (id : Nat) : Bool × World :=
  if w.outOfRange x y z then (false, w)
  else (true, { w with blocks := w.blocks.set (w.index x y z).toNat (id % 256) })

/-- `World.isSolid`: `blockRegistry.isSolid(this.getBlock(x, y, z))`. -/
def World.isSolid (w : World) (x y z : Int) : Bool :=
  registryIsSolid (w.getBlock x y z)

/-- In-range predicate of the claim: `(x,y,z) ∈ [0,sizeX)×[0,sizeY)×[0,sizeZ)`. -/
@[reducible]
def World.inRange (w : World) (x y z : Int) : Prop :=
  0 ≤ x ∧ x < w.sizeX ∧ 0 ≤ y ∧ y < w.sizeY ∧ 0 ≤ z ∧ z < w.sizeZ

/-! ### greedy-mesh.ts: ambient occlusion -/

/-- The mesher's `isSolid`: `block !== null && block.type !== NOTHING`. -/
def isSolidB : Option Block → Bool
  | none => false
  | some b => b.type != NOTHING

/-- The mesher's bounds-checked `getBlock`: `null` out of bounds, else the raw
`blocks[y]?.[z]?.[x] ?? null` lookup. -/
def meshGetBlock (blocks : BlockArray) (dims : Dims) (x y z : Int) : Option Block :=
  if x < 0 ∨ x ≥ (dims.x : Int) ∨ y < 0 ∨ y ≥ (dims.y : Int)
      ∨ z < 0 ∨ z ≥ (dims.z : Int) then none
  else blocks y z x

/-- `vertexAO(side1, side2, corner)`: 0 when both edge neighbors are solid,
else `3 - (side1 + side2 + corner)`. -/
def vertexAO (side1 side2 corner : Bool) : Nat :=
  if side1 && side2 then 0
  else 3 - ((if side1 then 1 else 0) + (if side2 then 1 else 0)
    + (if corner then 1 else 0))

/-- Component read of a `[number, number, number]` position vector. -/
def getComp : Int × Int × Int → Nat → Int
  | (a, _, _), 0 => a
  | (_, b, _), 1 => b
  | (_, _, c), _ => c

/-- Component write of a `[number, number, number]` position vector. -/
def setComp : Int × Int × Int → Nat → Int → Int × Int × Int
  | (_, b, c), 0, w => (w, b, c)
  | (a, _, c), 1, w => (a, w, c)
  | (a, b, _), _, w => (a, b, w)

/-- One corner of `computeFaceAO`: builds the `s1`, `s2`, `cr` sample
positions (all on the `airD` plane) and applies `vertexAO`. -/
def cornerAO (blocks : BlockArray) (dims : Dims) (faceU faceV airD : Int)
    (axisIdx uIdx vIdx : Nat) (su sv : Int) : Nat :=
  let s1 := setComp (setComp (setComp (0, 0, 0) axisIdx airD) uIdx (faceU + su))
    vIdx faceV
  let s2 := setComp (setComp (setComp (0, 0, 0) axisIdx airD) uIdx faceU)
    vIdx (faceV + sv)
  let cr := setComp (setComp (setComp (0, 0, 0) axisIdx airD) uIdx (faceU + su))
    vIdx (faceV + sv)
  vertexAO (isSolidB (meshGetBlock blocks dims s1.1 s1.2.1 s1.2.2))
    (isSolidB (meshGetBlock blocks dims s2.1 s2.2.1 s2.2.2))
    (isSolidB (meshGetBlock blocks dims cr.1 cr.2.1 cr.2.2))

/-- `computeFaceAO`: the four corner AO values, corner order
`(u-low,v-low), (u-high,v-low), (u-high,v-high), (u-low,v-high)`
(corner signs `(-1,-1), (1,-1), (1,1), (-1,1)`). -/
def computeFaceAO (blocks : BlockArray) (dims : Dims) (faceU faceV airD : Int)
    (axisIdx uIdx vIdx : Nat) : Nat × Nat × Nat × Nat :=
  (cornerAO blocks dims faceU faceV airD axisIdx uIdx vIdx (-1) (-1),
   cornerAO blocks dims faceU faceV airD axisIdx uIdx vIdx 1 (-1),
   cornerAO blocks dims faceU faceV airD axisIdx uIdx vIdx 1 1,
   cornerAO blocks dims faceU faceV airD axisIdx uIdx vIdx (-1) 1)

/-! ### greedy-mesh.ts: mask building and greedy merge -/

/-- A quad collected by the mesher: four world-space corners, UV tile
dimensions, facing, perpendicular axis, per-corner AO. -/
structure Quad where
  v0 : ℚ × ℚ × ℚ
  v1 : ℚ × ℚ × ℚ
  v2 : ℚ × ℚ × ℚ
  v3 : ℚ × ℚ × ℚ
  uvWidth : Nat
  uvHeight : Nat
  positiveFacing : Bool
  axis : Nat
  ao : Nat × Nat × Nat × Nat
deriving DecidableEq, Repr

/-- `getDim`: dimension along axis 0, 1 or 2. -/
def Dims.getDim (d : Dims) (axis : Nat) : Nat :=
  if axis = 0 then d.x else if axis = 1 then d.y else d.z

/-- `aoPacked = ao0 | (ao1 << 2) | (ao2 << 4) | (ao3 << 6)`. -/
def packAO (ao : Nat × Nat × Nat × Nat) : Nat :=
  ao.1 ||| (ao.2.1 <<< 2) ||| (ao.2.2.1 <<< 4) ||| (ao.2.2.2 <<< 6)

/-- The encoded mask value `(positive ? 1 : -1) * (1 + aoPacked)`. -/
def encodeMask (positive : Bool) (ao : Nat × Nat × Nat × Nat) : Int :=
  (if positive then 1 else -1) * (1 + (packAO ao : Int))

/-- One cell of the per-slice mask: 0 when solidity agrees across the
boundary, else the encoded direction+AO value. -/
def maskEntry (blocks : BlockArray) (dims : Dims) (axis u v : Nat) (d : Int)
    (iu jv : Nat) : Int :=
  let x : Int × Int × Int :=
    setComp (setComp (setComp (0, 0, 0) axis d) u (iu : Int)) v (jv : Int)
  let q : Int × Int × Int := setComp (0, 0, 0) axis 1
  let solidA := isSolidB (meshGetBlock blocks dims x.1 x.2.1 x.2.2)
  let solidB := isSolidB
    (meshGetBlock blocks dims (x.1 + q.1) (x.2.1 + q.2.1) (x.2.2 + q.2.2))
  if solidA == solidB then 0
  else
    let positive := solidA
    let airD : Int := if positive then d + 1 else d
    encodeMask positive (computeFaceAO blocks dims (iu : Int) (jv : Int) airD axis u v)

/-- The mask of one slice, row-major (`v` outer, `u` inner), index
`n = jv * uDim + iu`. -/
def buildMask (blocks : BlockArray) (dims : Dims) (axis u v : Nat)
    (uDim vDim : Nat) (d : Int) : List Int :=
  (List.range vDim).flatMap fun jv =>
    (List.range uDim).map fun iu => maskEntry blocks dims axis u v d iu jv

/-- Number of extra `w++` steps of
`while (i + w < uDim && mask[n + w] === maskVal) w++`.  The loop body runs at
most `uDim - (i + w)` times (the first conjunct of the guard), so any `fuel`
at least that large gives the exact loop semantics; structural recursion on
`fuel` keeps the definition kernel-reducible. -/
def widthExtra (mask : List Int) (n : Nat) (maskVal : Int) (i uDim : Nat) :
    Nat → Nat → Nat
  | _, 0 => 0
  | w, fuel + 1 =>
    if i + w < uDim ∧ mask.getD (n + w) 0 = maskVal then
      widthExtra mask n maskVal i uDim (w + 1) fuel + 1
    else 0

/-- The final `w` of the width loop, started at `w`. -/
def computeWidth (mask : List Int) (n : Nat) (maskVal : Int) (i uDim : Nat)
    (w : Nat) : Nat :=
  w + widthExtra mask n maskVal i uDim w uDim

/-- `mask[n + k + h*uDim] === maskVal` for every `k < w` (the inner row check
of the height loop). -/
def rowMatches (mask : List Int) (n : Nat) (maskVal : Int) (uDim w h : Nat) :
    Bool :=
  (List.range w).all fun k => mask.getD (n + k + h * uDim) 0 == maskVal

/-- The height loop: extend `h` while the next full row of width `w` matches
(`fuel ≥ vDim - (j + h)` gives the exact loop semantics). -/
def heightLoop (mask : List Int) (n : Nat) (maskVal : Int)
    (j vDim uDim w : Nat) : Nat → Nat → Nat
  | h, 0 => h
  | h, fuel + 1 =>
    if j + h < vDim ∧ rowMatches mask n maskVal uDim w h = true then
      heightLoop mask n maskVal j vDim uDim w (h + 1) fuel
    else h

/-- The final `h` of the height loop, started at `h`. -/
def computeHeight (mask : List Int) (n : Nat) (maskVal : Int)
    (j vDim uDim w : Nat) (h : Nat) : Nat :=
  heightLoop mask n maskVal j vDim uDim w h vDim

/-- Zero out the consumed `w × h` rectangle of mask cells. -/
def zeroRect (mask : List Int) (n uDim w h : Nat) : List Int :=
  (List.range h).foldl
    (fun m l => (List.range w).foldl (fun m' k => m'.set (n + k + l * uDim) 0) m)
    mask

/-- `absMask = |maskVal|; aoPacked = absMask - 1; ao_i = (aoPacked >> 2i) & 3`. -/
def unpackAO (maskVal : Int) : Nat × Nat × Nat × Nat :=
  let aoPacked := maskVal.natAbs - 1
  (aoPacked &&& 3, (aoPacked >>> 2) &&& 3, (aoPacked >>> 4) &&& 3,
    (aoPacked >>> 6) &&& 3)

/-- Build the quad emitted for the rectangle at `(i, j)` of size `w × h` in
the slice whose (post-increment) coordinate along `axis` is `sliceD`. -/
def mkQuad (axis u v : Nat) (sliceD : Int) (i j w h : Nat) (bs : ℚ)
    (maskVal : Int) : Quad :=
  let ao := unpackAO maskVal
  let x : Int × Int × Int :=
    setComp (setComp (setComp (0, 0, 0) axis sliceD) u (i : Int)) v (j : Int)
  let du : Int × Int × Int := setComp (0, 0, 0) u (w : Int)
  let dv : Int × Int × Int := setComp (0, 0, 0) v (h : Int)
  let wx : ℚ := x.1 * bs
  let wy : ℚ := x.2.1 * bs
  let wz : ℚ := x.2.2 * bs
  let dux : ℚ := du.1 * bs
  let duy : ℚ := du.2.1 * bs
  let duz : ℚ := du.2.2 * bs
  let dvx : ℚ := dv.1 * bs
  let dvy : ℚ := dv.2.1 * bs
  let dvz : ℚ := dv.2.2 * bs
  { v0 := (wx, wy, wz)
    v1 := (wx + dux, wy + duy, wz + duz)
    v2 := (wx + dux + dvx, wy + duy + dvy, wz + duz + dvz)
    v3 := (wx + dvx, wy + dvy, wz + dvz)
    uvWidth := w
    uvHeight := h
    positiveFacing := decide (0 < maskVal)
    axis := axis
    ao := ao }

/-- The inner greedy-merge loop over one mask row `j`, starting at column
`i`: emits quads and returns the updated mask.  Each iteration advances `i`
by at least 1 (`computeWidth` starts at 1), so the loop runs at most
`uDim - i` times; `fuel ≥ uDim - i` gives the exact loop semantics. -/
def mergeRow (axis u v : Nat) (sliceD : Int) (bs : ℚ) (uDim vDim j : Nat) :
    List Int → Nat → Nat → List Quad × List Int
  | mask, _, 0 => ([], mask)
  | mask, i, fuel + 1 =>
    if i < uDim then
      let n := j * uDim + i
      let maskVal := mask.getD n 0
      if maskVal ≠ 0 then
        let w := computeWidth mask n maskVal i uDim 1
        let h := computeHeight mask n maskVal j vDim uDim w 1
        let quad := mkQuad axis u v sliceD i j w h bs maskVal
        let mask' := zeroRect mask n uDim w h
        let rest := mergeRow axis u v sliceD bs uDim vDim j mask' (i + w) fuel
        (quad :: rest.1, rest.2)
      else
        mergeRow axis u v sliceD bs uDim vDim j mask (i + 1) fuel
    else ([], mask)

/-- The greedy merge of a whole slice: rows `j = 0 .. vDim-1`, threading the
mask through; returns the quads emitted for this slice. -/
def mergeSlice (axis u v : Nat) (sliceD : Int) (bs : ℚ) (uDim vDim : Nat)
    (mask : List Int) : List Quad :=
  ((List.range vDim).foldl
    (fun acc j =>
      let r := mergeRow axis u v sliceD bs uDim vDim j acc.2 0 uDim
      (acc.1 ++ r.1, r.2))
    (([] : List Quad), mask)).1

/-- All quads of the slice at coordinate `d` (mask built at `d`, quads placed
at `d + 1`, matching the `x[axis]++` before the merge). -/
def sliceQuads (blocks : BlockArray) (dims : Dims) (bs : ℚ)
    (axis u v uDim vDim : Nat) (d : Int) : List Quad :=
  mergeSlice axis u v (d + 1) bs uDim vDim
    (buildMask blocks dims axis u v uDim vDim d)

/-- All quads of one sweep axis: slices `d = -1 .. axisDim - 1`. -/
def axisQuads (blocks : BlockArray) (dims : Dims) (bs : ℚ) (axis : Nat) :
    List Quad :=
  let u := (axis + 1) % 3
  let v := (axis + 2) % 3
  let axisDim := dims.getDim axis
  let uDim := dims.getDim u
  let vDim := dims.getDim v
  (List.range (axisDim + 1)).flatMap fun s =>
    sliceQuads blocks dims bs axis u v uDim vDim ((s : Int) - 1)

/-- All quads produced by `greedyMesh` (phases 1 and 2): the three axis
sweeps in order. -/
def greedyMeshQuads (blocks : BlockArray) (dims : Dims) (bs : ℚ) : List Quad :=
  [0, 1, 2].flatMap (axisQuads blocks dims bs)

/-! ### greedy-mesh.ts: phase 3 (quad → vertex conversion, UV part) -/

/-- `AO_CURVE = [0.2, 0.45, 0.7, 1.0]`. -/
def AO_CURVE : List ℚ := [1/5, 9/20, 7/10, 1]

/-- The four per-corner UV pairs `(uv0, uv1, uv2, uv3)` of a quad: rotated
for X-facing quads, the default mapping otherwise. -/
def quadUVs (q : Quad) : (ℚ × ℚ) × (ℚ × ℚ) × (ℚ × ℚ) × (ℚ × ℚ) :=
  if q.axis = 0 then
    ((0, (q.uvWidth : ℚ)), (0, 0), ((q.uvHeight : ℚ), 0),
      ((q.uvHeight : ℚ), (q.uvWidth : ℚ)))
  else
    ((0, (q.uvHeight : ℚ)), ((q.uvWidth : ℚ), (q.uvHeight : ℚ)),
      ((q.uvWidth : ℚ), 0), (0, 0))

/-- The diagonal-flip test `ao0 + ao2 > ao1 + ao3`. -/
def flipDiag (q : Quad) : Bool :=
  decide (q.ao.1 + q.ao.2.2.1 > q.ao.2.1 + q.ao.2.2.2)

/-- The six `(position, uv, aoFloat)` vertices of a quad, in emission order
(winding by facing, diagonal by `flipDiag`). -/
def triangleData (q : Quad) : List ((ℚ × ℚ × ℚ) × (ℚ × ℚ) × ℚ) :=
  let uv := quadUVs q
  let aoF0 := AO_CURVE.getD q.ao.1 0
  let aoF1 := AO_CURVE.getD q.ao.2.1 0
  let aoF2 := AO_CURVE.getD q.ao.2.2.1 0
  let aoF3 := AO_CURVE.getD q.ao.2.2.2 0
  if q.positiveFacing then
    if flipDiag q then
      [(q.v0, uv.1, aoF0), (q.v1, uv.2.1, aoF1), (q.v3, uv.2.2.2, aoF3),
       (q.v1, uv.2.1, aoF1), (q.v2, uv.2.2.1, aoF2), (q.v3, uv.2.2.2, aoF3)]
    else
      [(q.v0, uv.1, aoF0), (q.v1, uv.2.1, aoF1), (q.v2, uv.2.2.1, aoF2),
       (q.v0, uv.1, aoF0), (q.v2, uv.2.2.1, aoF2), (q.v3, uv.2.2.2, aoF3)]
  else
    if flipDiag q then
      [(q.v0, uv.1, aoF0), (q.v3, uv.2.2.2, aoF3), (q.v1, uv.2.1, aoF1),
       (q.v1, uv.2.1, aoF1), (q.v3, uv.2.2.2, aoF3), (q.v2, uv.2.2.1, aoF2)]
    else
      [(q.v0, uv.1, aoF0), (q.v2, uv.2.2.1, aoF2), (q.v1, uv.2.1, aoF1),
       (q.v0, uv.1, aoF0), (q.v3, uv.2.2.2, aoF3), (q.v2, uv.2.2.1, aoF2)]

/-- `numVertices = quads.length * 6`. -/
def meshNumVertices (blocks : BlockArray) (dims : Dims) (bs : ℚ) : Nat :=
  (greedyMeshQuads blocks dims bs).length * 6

/-- Component read of a rational position triple. -/
def posComp : ℚ × ℚ × ℚ → Nat → ℚ
  | (a, _, _), 0 => a
  | (_, b, _), 1 => b
  | (_, _, c), _ => c

/-! ### Concrete grids used in claim instances -/

/-- A solid dirt block. -/
def solidDirt : Option Block := some ⟨DIRT⟩

/-- The all-empty block array. -/
def emptyGridB : BlockArray := fun _ _ _ => none

/-- The all-solid block array. -/
def fullGridB : BlockArray := fun _ _ _ => solidDirt

/-- A single solid cell at block position `(x,y,z) = (1,1,1)` (remember the
array is indexed `[y][z][x]`). -/
def singleGridB : BlockArray := fun y z x =>
  if y = 1 ∧ z = 1 ∧ x = 1 then solidDirt else none

/-- Two adjacent solid cells at `(0,0,0)` and `(1,0,0)`. -/
def rowGridB : BlockArray := fun y z x =>
  if y = 0 ∧ z = 0 ∧ (x = 0 ∨ x = 1) then solidDirt else none

/-- Ground cells at `(0,0,0)` and `(1,0,0)` plus an AO occluder at
`(2,1,0)`: the occluder darkens two corners of the top face over `(1,0,0)`
but no corner of the top face over `(0,0,0)`. -/
def aoGridB : BlockArray := fun y z x =>
  if (y = 0 ∧ z = 0 ∧ (x = 0 ∨ x = 1)) ∨ (y = 1 ∧ z = 0 ∧ x = 2) then solidDirt
  else none

/-- 2×2×2 dimensions. -/
def d222 : Dims := ⟨2, 2, 2⟩

/-- 3×3×3 dimensions. -/
def d333 : Dims := ⟨3, 3, 3⟩

/-- 2×1×1 dimensions. -/
def d211 : Dims := ⟨2, 1, 1⟩

/-- 3×2×1 dimensions. -/
def d321 : Dims := ⟨3, 2, 1⟩

/-! ### collision.ts -/

/-- `collision.ts`'s `isSolid`: bounds check, then
`block !== undefined && block.type !== NOTHING`. -/
def collIsSolid (blocks : BlockArray) (bx yb zb : Int) (dims : Dims) : Bool :=
  if bx < 0 ∨ bx ≥ (dims.x : Int) ∨ yb < 0 ∨ yb ≥ (dims.y : Int)
      ∨ zb < 0 ∨ zb ≥ (dims.z : Int) then false
  else
    match blocks yb zb bx with
    | none => false
    | some b => b.type != NOTHING

/-- The collision epsilon `1e-6` subtracted from max bounds. -/
def collisionEPS : ℚ := 1 / 1000000

/-- The integer cells visited by `for (let b = lo; b <= hi; b++)`. -/
def cellRange (lo hi : Int) : List Int :=
  (List.range (hi + 1 - lo).toNat).map fun k : Nat => lo + (k : Int)

/-- `resolveX`: computes the post-move AABB's cell range and pushes `px` out
of every solid cell along X (direction-dependent); returns the corrected
`px` and the collided flag. -/
def resolveX (px py pz : ℚ) (blocks : BlockArray) (dims : Dims)
    (blockSize halfWidth height direction : ℚ) : ℚ × Bool :=
  let minX := px - halfWidth
  let maxX := px + halfWidth
  let minY := py - height
  let maxY := py
  let minZ := pz - halfWidth
  let maxZ := pz + halfWidth
  let bxMin := ⌊minX / blockSize⌋
  let bxMax := ⌊(maxX - collisionEPS) / blockSize⌋
  let byMin := ⌊minY / blockSize⌋
  let byMax := ⌊(maxY - collisionEPS) / blockSize⌋
  let bzMin := ⌊minZ / blockSize⌋
  let bzMax := ⌊(maxZ - collisionEPS) / blockSize⌋
  (cellRange byMin byMax).foldl
    (fun acc yb =>
      (cellRange bzMin bzMax).foldl
        (fun acc zb =>
          (cellRange bxMin bxMax).foldl
            (fun acc xb =>
              if collIsSolid blocks xb yb zb dims then
                if direction > 0 then ((xb : ℚ) * blockSize - halfWidth, true)
                else if direction < 0 then
                  (((xb : ℚ) + 1) * blockSize + halfWidth, true)
                else (acc.1, true)
              else acc)
            acc)
        acc)
    (px, false)

/-- `resolveZ`: as `resolveX` along Z. -/
def resolveZ (px py pz : ℚ) (blocks : BlockArray) (dims : Dims)
    (blockSize halfWidth height direction : ℚ) : ℚ × Bool :=
  let minX := px - halfWidth
  let maxX := px + halfWidth
  let minY := py - height
  let maxY := py
  let minZ := pz - halfWidth
  let maxZ := pz + halfWidth
  let bxMin := ⌊minX / blockSize⌋
  let bxMax := ⌊(maxX - collisionEPS) / blockSize⌋
  let byMin := ⌊minY / blockSize⌋
  let byMax := ⌊(maxY - collisionEPS) / blockSize⌋
  let bzMin := ⌊minZ / blockSize⌋
  let bzMax := ⌊(maxZ - collisionEPS) / blockSize⌋
  (cellRange byMin byMax).foldl
    (fun acc yb =>
      (cellRange bzMin bzMax).foldl
        (fun acc zb =>
          (cellRange bxMin bxMax).foldl
            (fun acc xb =>
              if collIsSolid blocks xb yb zb dims then
                if direction > 0 then ((zb : ℚ) * blockSize - halfWidth, true)
                else if direction < 0 then
                  (((zb : ℚ) + 1) * blockSize + halfWidth, true)
                else (acc.1, true)
              else acc)
            acc)
        acc)
    (pz, false)

/-- `resolveY`: as `resolveX` along Y, but producing `(py, onGround,
collidedCeiling)`: moving down snaps feet to the cell top and sets
`onGround`; moving up snaps the head to the cell bottom and sets
`collidedCeiling`. -/
def resolveY (px py pz : ℚ) (blocks : BlockArray) (dims : Dims)
    (blockSize halfWidth height direction : ℚ) : ℚ × Bool × Bool :=
  let minX := px - halfWidth
  let maxX := px + halfWidth
  let minY := py - height
  let maxY := py
  let minZ := pz - halfWidth
  let maxZ := pz + halfWidth
  let bxMin := ⌊minX / blockSize⌋
  let bxMax := ⌊(maxX - collisionEPS) / blockSize⌋
  let byMin := ⌊minY / blockSize⌋
  let byMax := ⌊(maxY - collisionEPS) / blockSize⌋
  let bzMin := ⌊minZ / blockSize⌋
  let bzMax := ⌊(maxZ - collisionEPS) / blockSize⌋
  (cellRange byMin byMax).foldl
    (fun acc yb =>
      (cellRange bzMin bzMax).foldl
        (fun acc zb =>
          (cellRange bxMin bxMax).foldl
            (fun acc xb =>
              if collIsSolid blocks xb yb zb dims then
                if direction < 0 then
                  (((yb : ℚ) + 1) * blockSize + height, true, acc.2.2)
                else if direction > 0 then
                  ((yb : ℚ) * blockSize, acc.2.1, true)
                else acc
              else acc)
            acc)
        acc)
    (py, false, false)

/-- The result record of `moveAndCollide`. -/
structure CollisionResult where
  onGround : Bool
  collidedX : Bool
  collidedZ : Bool
  collidedCeiling : Bool
deriving DecidableEq, Repr

/-- `moveAndCollide`: apply the delta axis by axis (X, then Z, then Y),
resolving each axis against the grid; returns the corrected position and the
per-axis collision flags. -/
def moveAndCollide (pos delta : ℚ × ℚ × ℚ) (blocks : BlockArray) (dims : Dims)
    (blockSize halfWidth height : ℚ) : (ℚ × ℚ × ℚ) × CollisionResult :=
  let px0 := pos.1 + delta.1
  let xr := resolveX px0 pos.2.1 pos.2.2 blocks dims blockSize halfWidth height
    delta.1
  let px := xr.1
  let pz0 := pos.2.2 + delta.2.2
  let zr := resolveZ px pos.2.1 pz0 blocks dims blockSize halfWidth height
    delta.2.2
  let pz := zr.1
  let py0 := pos.2.1 + delta.2.1
  let yr := resolveY px py0 pz blocks dims blockSize halfWidth height delta.2.1
  let py := yr.1
  ((px, py, pz),
    { onGround := yr.2.1, collidedX := xr.2, collidedZ := zr.2,
      collidedCeiling := yr.2.2 })

/-- A grid with exactly one block at cell `c = (cx, cy, cz)` (the array is
indexed `[y][z][x]`). -/
def oneCellGridB (c : Int × Int × Int) : BlockArray := fun y z x =>
  if x = c.1 ∧ y = c.2.1 ∧ z = c.2.2 then solidDirt else none

/-! ### movement.ts (`physicsTick` variant): constants and the physics tick.

`GROUND_DRAG ** t`, `AIR_DRAG ** t` and `VERTICAL_DRAG ** t` are real powers
with rational `t = dt / MC_TICK`; they are not expressible in `ℚ`, so the
tick takes their values as the parameters `groundDragPow`, `airDragPow`,
`vertDragPow`.  For `t ≥ 0` the real values satisfy `0 < dragPow ≤ 1` (each
drag constant lies in `(0, 1]`), which is what the theorems assume.  The
normalized movement direction (from `getMovementDirection`) and the
normalized horizontal facing (whose length involves a square root) are
likewise taken as the parameters `dir` and `facingUnit` (with `facingPos`
standing for `facingLen > 0`). -/

/-- `MC_TICK = 0.05`. -/
def MC_TICK : ℚ := 1/20

/-- `JUMP_VELOCITY = 4.2`. -/
def JUMP_VELOCITY : ℚ := 21/5

/-- `GRAVITY = 0.8`. -/
def GRAVITY : ℚ := 4/5

/-- `TERMINAL_VELOCITY = -39.2`. -/
def TERMINAL_VELOCITY : ℚ := -196/5

/-- `GROUND_ACCEL = 3`. -/
def GROUND_ACCEL : ℚ := 3

/-- `AIR_ACCEL = 0.26`. -/
def AIR_ACCEL : ℚ := 13/50

/-- `SPRINT_JUMP_BOOST = 2.8`. -/
def SPRINT_JUMP_BOOST : ℚ := 14/5

/-- `NEGLIGIBLE_THRESHOLD = 0.05`. -/
def NEGLIGIBLE_THRESHOLD : ℚ := 1/20

/-- `JUMP_COOLDOWN = 0.5`. -/
def JUMP_COOLDOWN : ℚ := 1/2

/-- The `PlayerState` record. -/
structure PlayerState where
  velX : ℚ
  velY : ℚ
  velZ : ℚ
  onGround : Bool
  jumpCooldown : ℚ
deriving DecidableEq, Repr

/-- `createPlayerState()`. -/
def createPlayerState : PlayerState :=
  { velX := 0, velY := 0, velZ := 0, onGround := false, jumpCooldown := 0 }

/-- The `if (Math.abs(v) < thr) v = 0` snap used for the vertical threshold
and the horizontal momenta. -/
def snapSmall (v thr : ℚ) : ℚ := if |v| < thr then 0 else v

/-- Vertical integration after the move: subtract the gravity step, multiply
by the vertical drag power, clamp to the terminal velocity floor. -/
def integrateVertical (v gStep vdp : ℚ) : ℚ :=
  if (v - gStep) * vdp < TERMINAL_VELOCITY then TERMINAL_VELOCITY
  else (v - gStep) * vdp

/-- `physicsTick`: jump-cooldown decrement, vertical snap, jump (with
optional horizontal boost), horizontal drag/accel in the grounded or
airborne regime, `moveAndCollide`, velocity zeroing on collided axes,
vertical integration, ground-state update.  Returns the new state and the
corrected position. -/
def physicsTick (s : PlayerState) (spaceDown moveKeyDown : Bool)
    (dir facingUnit : ℚ × ℚ) (facingPos : Bool) (pos : ℚ × ℚ × ℚ)
    (blocks : BlockArray) (dims : Dims) (bs hw ht dt : ℚ)
    (groundDragPow airDragPow vertDragPow : ℚ) :
    PlayerState × (ℚ × ℚ × ℚ) :=
  let t := dt / MC_TICK
  let jc0 := if s.jumpCooldown > 0 then s.jumpCooldown - dt else s.jumpCooldown
  let velY0 := snapSmall s.velY (NEGLIGIBLE_THRESHOLD * t)
  let jumped := spaceDown && s.onGround && decide (jc0 ≤ 0)
  let velY1 := if jumped then JUMP_VELOCITY else velY0
  let jc1 := if jumped then JUMP_COOLDOWN else if spaceDown then jc0 else 0
  let doBoost := jumped && moveKeyDown && facingPos
  let velX0 := s.velX + (if doBoost then facingUnit.1 * SPRINT_JUMP_BOOST else 0)
  let velZ0 := s.velZ + (if doBoost then facingUnit.2 * SPRINT_JUMP_BOOST else 0)
  let hasInput := (dir.1 != 0) || (dir.2 != 0)
  let useGround := s.onGround && !jumped
  let drag := if useGround then groundDragPow else airDragPow
  let accel := (if useGround then GROUND_ACCEL else AIR_ACCEL) * t
  let momX := snapSmall (velX0 * drag) (NEGLIGIBLE_THRESHOLD * t)
  let momZ := snapSmall (velZ0 * drag) (NEGLIGIBLE_THRESHOLD * t)
  let velX1 := momX + (if hasInput then accel * dir.1 else 0)
  let velZ1 := momZ + (if hasInput then accel * dir.2 else 0)
  let mc := moveAndCollide pos (velX1 * t, velY1 * t, velZ1 * t) blocks dims
    bs hw ht
  let velX2 := if mc.2.collidedX then 0 else velX1
  let velZ2 := if mc.2.collidedZ then 0 else velZ1
  let velY2 := if mc.2.onGround then 0 else velY1
  let velY3 := if mc.2.collidedCeiling then 0 else velY2
  let velY5 := integrateVertical velY3 (GRAVITY * t) vertDragPow
  ({ velX := velX2, velY := velY5, velZ := velZ2, onGround := mc.2.onGround,
     jumpCooldown := jc1 }, mc.1)

/-- The states reachable from `createPlayerState` by physics ticks whose
frame delta is nonnegative and whose vertical drag power lies in `[0, 1]`
(which `VERTICAL_DRAG ** t` does for every `t ≥ 0`). -/
inductive ReachableState : PlayerState → Prop
  | init : ReachableState createPlayerState
  | step (s : PlayerState) (spaceDown moveKeyDown : Bool)
      (dir facingUnit : ℚ × ℚ) (facingPos : Bool) (pos : ℚ × ℚ × ℚ)
      (blocks : BlockArray) (dims : Dims)
      (bs hw ht dt groundDragPow airDragPow vertDragPow : ℚ)
      (hdt : 0 ≤ dt) (hv0 : 0 ≤ vertDragPow) (hv1 : vertDragPow ≤ 1) :
      ReachableState s →
      ReachableState (physicsTick s spaceDown moveKeyDown dir facingUnit
        facingPos pos blocks dims bs hw ht dt groundDragPow airDragPow
        vertDragPow).1

/-! ### raycast.ts: Amanatides–Woo DDA.

JS `Infinity` (the `tDelta`/`tMax` of an axis with zero direction) is
modelled as `none : Option ℚ`; `optLt`/`optAdd` mirror IEEE comparisons and
additions on `Infinity` for the values that occur.  The unbounded `while`
loop takes an explicit fuel; every statement is quantified over the fuel
(`fuel` bounds the number of loop iterations). -/

/-- `<` with `none` as `+Infinity`. -/
def optLt : Option ℚ → Option ℚ → Bool
  | some a, some b => a < b
  | some _, none => true
  | none, _ => false

/-- `+` with `none` as `+Infinity`. -/
def optAdd : Option ℚ → Option ℚ → Option ℚ
  | some a, some b => some (a + b)
  | _, _ => none

/-- The `RaycastHit` record. -/
structure RaycastHit where
  blockPos : Int × Int × Int
  faceNormal : Int × Int × Int
  distance : ℚ
deriving DecidableEq, Repr

/-- Per-axis step direction: sign of the direction component, 0 if parallel. -/
def stepOf (d : ℚ) : Int := if d > 0 then 1 else if d < 0 then -1 else 0

/-- The face normal for a hit entered along `lastAxis`: opposite the step on
that axis. -/
def normalOf (stepX stepY stepZ : Int) : Nat → Int × Int × Int
  | 0 => (-stepX, 0, 0)
  | 1 => (0, -stepY, 0)
  | _ => (0, 0, -stepZ)

/-- The DDA loop of `raycast`: advance the axis with the smallest `tMax`,
break when the accumulated `t` reaches `maxDistBlock`, and return a hit at
the first solid cell tested. -/
def rayLoop (w : World) (stepX stepY stepZ : Int)
    (tDeltaX tDeltaY tDeltaZ : Option ℚ) (maxDistBlock : ℚ) :
    Nat → Int → Int → Int → Option ℚ → Option ℚ → Option ℚ → Option ℚ →
      Option RaycastHit
  | 0, _, _, _, _, _, _, _ => none
  | fuel + 1, bx, yv, bz, tMaxX, tMaxY, tMaxZ, t =>
    if optLt t (some maxDistBlock) then
      if optLt tMaxX tMaxY && optLt tMaxX tMaxZ then
        if optLt tMaxX (some maxDistBlock) then
          if w.isSolid (bx + stepX) yv bz then
            some ⟨(bx + stepX, yv, bz), (-stepX, 0, 0),
              tMaxX.getD 0 * w.blockSize⟩
          else
            rayLoop w stepX stepY stepZ tDeltaX tDeltaY tDeltaZ maxDistBlock
              fuel (bx + stepX) yv bz (optAdd tMaxX tDeltaX) tMaxY tMaxZ tMaxX
        else none
      else if optLt tMaxY tMaxZ then
        if optLt tMaxY (some maxDistBlock) then
          if w.isSolid bx (yv + stepY) bz then
            some ⟨(bx, yv + stepY, bz), (0, -stepY, 0),
              tMaxY.getD 0 * w.blockSize⟩
          else
            rayLoop w stepX stepY stepZ tDeltaX tDeltaY tDeltaZ maxDistBlock
              fuel bx (yv + stepY) bz tMaxX (optAdd tMaxY tDeltaY) tMaxZ tMaxY
        else none
      else
        if optLt tMaxZ (some maxDistBlock) then
          if w.isSolid bx yv (bz + stepZ) then
            some ⟨(bx, yv, bz + stepZ), (0, 0, -stepZ),
              tMaxZ.getD 0 * w.blockSize⟩
          else
            rayLoop w stepX stepY stepZ tDeltaX tDeltaY tDeltaZ maxDistBlock
              fuel bx yv (bz + stepZ) tMaxX tMaxY (optAdd tMaxZ tDeltaZ) tMaxZ
        else none
    else none

/-- The trace companion of `rayLoop`: the cells the DDA tests for solidity,
with the axis just advanced and the accumulated `t` at the test. -/
def rayTrace (w : World) (stepX stepY stepZ : Int)
    (tDeltaX tDeltaY tDeltaZ : Option ℚ) (maxDistBlock : ℚ) :
    Nat → Int → Int → Int → Option ℚ → Option ℚ → Option ℚ → Option ℚ →
      List ((Int × Int × Int) × Nat × ℚ)
  | 0, _, _, _, _, _, _, _ => []
  | fuel + 1, bx, yv, bz, tMaxX, tMaxY, tMaxZ, t =>
    if optLt t (some maxDistBlock) then
      if optLt tMaxX tMaxY && optLt tMaxX tMaxZ then
        if optLt tMaxX (some maxDistBlock) then
          ((bx + stepX, yv, bz), 0, tMaxX.getD 0) ::
            rayTrace w stepX stepY stepZ tDeltaX tDeltaY tDeltaZ maxDistBlock
              fuel (bx + stepX) yv bz (optAdd tMaxX tDeltaX) tMaxY tMaxZ tMaxX
        else []
      else if optLt tMaxY tMaxZ then
        if optLt tMaxY (some maxDistBlock) then
          ((bx, yv + stepY, bz), 1, tMaxY.getD 0) ::
            rayTrace w stepX stepY stepZ tDeltaX tDeltaY tDeltaZ maxDistBlock
              fuel bx (yv + stepY) bz tMaxX (optAdd tMaxY tDeltaY) tMaxZ tMaxY
        else []
      else
        if optLt tMaxZ (some maxDistBlock) then
          ((bx, yv, bz + stepZ), 2, tMaxZ.getD 0) ::
            rayTrace w stepX stepY stepZ tDeltaX tDeltaY tDeltaZ maxDistBlock
              fuel bx yv (bz + stepZ) tMaxX tMaxY (optAdd tMaxZ tDeltaZ) tMaxZ
        else []
    else []

/-- The hit built from a trace entry. -/
def traceHit (stepX stepY stepZ : Int) (bs : ℚ)
    (e : (Int × Int × Int) × Nat × ℚ) : RaycastHit :=
  ⟨e.1, normalOf stepX stepY stepZ e.2.1, e.2.2 * bs⟩

/-- `raycast(origin, direction, world, maxDistance)` with explicit loop
fuel: grid-space conversion, per-axis step/`tDelta`/initial `tMax`, then the
DDA loop starting at `t = 0`. -/
def raycast (fuel : Nat) (origin direction : ℚ × ℚ × ℚ) (w : World)
    (maxDistance : ℚ) : Option RaycastHit :=
  let bs := w.blockSize
  let ox := origin.1 / bs
  let oy := origin.2.1 / bs
  let oz := origin.2.2 / bs
  let dx := direction.1
  let dy := direction.2.1
  let dz := direction.2.2
  let tDeltaX : Option ℚ := if dx ≠ 0 then some |1 / dx| else none
  let tDeltaY : Option ℚ := if dy ≠ 0 then some |1 / dy| else none
  let tDeltaZ : Option ℚ := if dz ≠ 0 then some |1 / dz| else none
  let tMaxX : Option ℚ :=
    if dx > 0 then some ((⌊ox⌋ + 1 - ox) / dx)
    else if dx < 0 then some ((⌊ox⌋ - ox) / dx) else none
  let tMaxY : Option ℚ :=
    if dy > 0 then some ((⌊oy⌋ + 1 - oy) / dy)
    else if dy < 0 then some ((⌊oy⌋ - oy) / dy) else none
  let tMaxZ : Option ℚ :=
    if dz > 0 then some ((⌊oz⌋ + 1 - oz) / dz)
    else if dz < 0 then some ((⌊oz⌋ - oz) / dz) else none
  rayLoop w (stepOf dx) (stepOf dy) (stepOf dz) tDeltaX tDeltaY tDeltaZ
    (maxDistance / bs) fuel ⌊ox⌋ ⌊oy⌋ ⌊oz⌋ tMaxX tMaxY tMaxZ (some 0)

/-- The tested-cell trace of a full `raycast` call (same preamble). -/
def raycastTrace (fuel : Nat) (origin direction : ℚ × ℚ × ℚ) (w : World)
    (maxDistance : ℚ) : List ((Int × Int × Int) × Nat × ℚ) :=
  let bs := w.blockSize
  let ox := origin.1 / bs
  let oy := origin.2.1 / bs
  let oz := origin.2.2 / bs
  let dx := direction.1
  let dy := direction.2.1
  let dz := direction.2.2
  let tDeltaX : Option ℚ := if dx ≠ 0 then some |1 / dx| else none
  let tDeltaY : Option ℚ := if dy ≠ 0 then some |1 / dy| else none
  let tDeltaZ : Option ℚ := if dz ≠ 0 then some |1 / dz| else none
  let tMaxX : Option ℚ :=
    if dx > 0 then some ((⌊ox⌋ + 1 - ox) / dx)
    else if dx < 0 then some ((⌊ox⌋ - ox) / dx) else none
  let tMaxY : Option ℚ :=
    if dy > 0 then some ((⌊oy⌋ + 1 - oy) / dy)
    else if dy < 0 then some ((⌊oy⌋ - oy) / dy) else none
  let tMaxZ : Option ℚ :=
    if dz > 0 then some ((⌊oz⌋ + 1 - oz) / dz)
    else if dz < 0 then some ((⌊oz⌋ - oz) / dz) else none
  rayTrace w (stepOf dx) (stepOf dy) (stepOf dz) tDeltaX tDeltaY tDeltaZ
    (maxDistance / bs) fuel ⌊ox⌋ ⌊oy⌋ ⌊oz⌋ tMaxX tMaxY tMaxZ (some 0)

/-- Modelled from the spec (§4.2 Phase 3, and the repository's own design
notes): the UV a corner at world position `p` of a quad perpendicular to
`axis` would carry if `uv = absolute world position / texture-scale`, V never
inverted, with U/V swapped on X-facing quads so texture-V maps to world-up. -/
def specWorldUV (scale : ℚ) (axis : Nat) (p : ℚ × ℚ × ℚ) : ℚ × ℚ :=
  let u := (axis + 1) % 3
  let v := (axis + 2) % 3
  if axis = 0 then (posComp p v / scale, posComp p u / scale)
  else (posComp p u / scale, posComp p v / scale)

/-- The world-aligned-UV property claimed by the spec, for a given
texture-scale factor: every emitted quad's four corner UVs equal the
absolute world position of that corner divided by the scale. -/
def uvWorldAligned (scale : ℚ) (blocks : BlockArray) (dims : Dims) (bs : ℚ) :
    Prop :=
  ∀ q ∈ greedyMeshQuads blocks dims bs,
    quadUVs q = (specWorldUV scale q.axis q.v0, specWorldUV scale q.axis q.v1,
      specWorldUV scale q.axis q.v2, specWorldUV scale q.axis q.v3)

/-- The +Y face quad of the single-cell 3×3×3 grid, at world height 2 over
block `(1,1,1)` (unit block size). -/
def quadY : Quad :=
  { v0 := (1, 2, 1), v1 := (1, 2, 2), v2 := (2, 2, 2), v3 := (2, 2, 1)
    uvWidth := 1, uvHeight := 1, positiveFacing := true, axis := 1
    ao := (3, 3, 3, 3) }

/-- A small concrete world used by witnesses: 2×2×2 grid, unit block size,
marble at flat index 0 (block cell (0,0,0)), air elsewhere. -/
def sampleWorld : World :=
  { blocks := [1, 0, 0, 0, 0, 0, 0, 0]
    sizeX := 2, sizeY := 2, sizeZ := 2, blockSize := 1 }

/-! ### End of definitions; lemmas and claim theorems follow. -/

lemma World.outOfRange_eq_false_iff (w : World) (x y z : Int) :
    w.outOfRange x y z = false ↔ w.inRange x y z := by
  simp only [World.outOfRange, World.inRange, Bool.or_eq_false_iff,
    decide_eq_false_iff_not, not_lt, not_le]
  omega

lemma World.outOfRange_eq_true_iff (w : World) (x y z : Int) :
    w.outOfRange x y z = true ↔ ¬ w.inRange x y z := by
  rw [← World.outOfRange_eq_false_iff]
  cases w.outOfRange x y z <;> simp

lemma World.index_bounds (w : World) (x y z : Int) (h : w.inRange x y z) :
    0 ≤ w.index x y z ∧ w.index x y z < (w.sizeX * w.sizeY * w.sizeZ : Nat) := by
  obtain ⟨hx0, hx1, hy0, hy1, hz0, hz1⟩ := h
  unfold World.index
  push_cast
  constructor
  · have h1 : (0 : Int) ≤ y * w.sizeZ * w.sizeX := by positivity
    have h2 : (0 : Int) ≤ z * w.sizeX := by positivity
    linarith
  · nlinarith [mul_nonneg (mul_nonneg hy0 (Int.ofNat_nonneg w.sizeZ))
      (Int.ofNat_nonneg w.sizeX), mul_nonneg hz0 (Int.ofNat_nonneg w.sizeX),
      mul_nonneg (Int.ofNat_nonneg w.sizeZ) (Int.ofNat_nonneg w.sizeX)]

/-- Euclidean-digit uniqueness: `a * X + x` determines `a` and `x` when
`0 ≤ x, x' < X`. -/
lemma digit_unique {X a b x x' : Int} (hx : 0 ≤ x) (hx2 : x < X)
    (hx' : 0 ≤ x') (hx2' : x' < X) (h : a * X + x = b * X + x') :
    a = b ∧ x = x' := by
  have hX : 0 < X := lt_of_le_of_lt hx hx2
  have h1 : (a - b) * X = x' - x := by ring_nf; linarith
  have hab : a = b := by
    by_contra hne
    have h2 : 1 ≤ |a - b| := Int.one_le_abs (sub_ne_zero.mpr hne)
    have h3 : X ≤ |a - b| * X := le_mul_of_one_le_left hX.le h2
    have h4 : |(a - b) * X| = |x' - x| := by rw [h1]
    rw [abs_mul, abs_of_pos hX] at h4
    have h5 : |x' - x| < X := abs_sub_lt_of_nonneg_of_lt hx' hx2' hx hx2
    linarith
  refine ⟨hab, ?_⟩
  subst hab
  linarith

/-- The flat index is injective on in-range coordinates. -/
lemma World.index_inj (w : World) {x y z x' y' z' : Int}
    (h : w.inRange x y z) (h' : w.inRange x' y' z')
    (heq : w.index x y z = w.index x' y' z') :
    x = x' ∧ y = y' ∧ z = z' := by
  obtain ⟨hx0, hx1, hy0, hy1, hz0, hz1⟩ := h
  obtain ⟨hx0', hx1', hy0', hy1', hz0', hz1'⟩ := h'
  unfold World.index at heq
  have heq' : (y * w.sizeZ + z) * w.sizeX + x
      = (y' * w.sizeZ + z') * w.sizeX + x' := by ring_nf; ring_nf at heq; linarith
  obtain ⟨hrow, hx⟩ := digit_unique hx0 hx1 hx0' hx1' heq'
  obtain ⟨hy, hz⟩ := digit_unique hz0 hz1 hz0' hz1' hrow
  exact ⟨hx, hy, hz⟩

lemma World.setBlock_fst_out (w : World) (x y z : Int) (id : Nat)
    (h : ¬ w.inRange x y z) : w.setBlock x y z id = (false, w) := by
  have ht := (w.outOfRange_eq_true_iff x y z).mpr h
  simp [World.setBlock, ht]

lemma World.setBlock_fst_in (w : World) (x y z : Int) (id : Nat)
    (h : w.inRange x y z) :
    w.setBlock x y z id =
      (true, { w with blocks := w.blocks.set (w.index x y z).toNat (id % 256) }) := by
  have hf := (w.outOfRange_eq_false_iff x y z).mpr h
  simp [World.setBlock, hf]

lemma World.getBlock_in (w : World) (x y z : Int) (h : w.inRange x y z) :
    w.getBlock x y z = w.blocks.getD (w.index x y z).toNat AIR := by
  have hf := (w.outOfRange_eq_false_iff x y z).mpr h
  simp [World.getBlock, hf]

lemma World.getBlock_setBlock_self (w : World) (x y z : Int) (id : Nat)
    (h : w.inRange x y z) (hid : id < 256)
    (hlen : w.blocks.length = w.sizeX * w.sizeY * w.sizeZ) :
    ((w.setBlock x y z id).2).getBlock x y z = id := by
  rw [w.setBlock_fst_in x y z id h]
  have h' : ({ w with blocks := w.blocks.set (w.index x y z).toNat (id % 256) }
      : World).inRange x y z := h
  rw [World.getBlock_in _ x y z h']
  obtain ⟨hi0, hi1⟩ := w.index_bounds x y z h
  have hlt : (w.index x y z).toNat < w.blocks.length := by omega
  show (w.blocks.set (w.index x y z).toNat (id % 256)).getD
      (w.index x y z).toNat AIR = id
  rw [List.getD_eq_getElem?_getD, List.getElem?_set_self', List.getElem?_eq_getElem hlt]
  simp [Nat.mod_eq_of_lt hid]

lemma World.getBlock_setBlock_other (w : World) (x y z x' y' z' : Int) (id : Nat)
    (h : w.inRange x y z) (hne : ¬ (x' = x ∧ y' = y ∧ z' = z)) :
    ((w.setBlock x y z id).2).getBlock x' y' z' = w.getBlock x' y' z' := by
  rw [w.setBlock_fst_in x y z id h]
  set w' : World := { w with blocks := w.blocks.set (w.index x y z).toNat (id % 256) }
  by_cases h' : w.inRange x' y' z'
  · have h'w : w'.inRange x' y' z' := h'
    rw [World.getBlock_in _ x' y' z' h'w, World.getBlock_in _ x' y' z' h']
    have hiw : w'.index x' y' z' = w.index x' y' z' := rfl
    rw [hiw]
    have hidx : w.index x y z ≠ w.index x' y' z' := by
      intro hcontra
      obtain ⟨hx, hy, hz⟩ := w.index_inj h h' hcontra
      exact hne ⟨hx.symm, hy.symm, hz.symm⟩
    obtain ⟨hi0, _⟩ := w.index_bounds x y z h
    obtain ⟨hi0', _⟩ := w.index_bounds x' y' z' h'
    have hnat : (w.index x y z).toNat ≠ (w.index x' y' z').toNat := by omega
    show (w.blocks.set (w.index x y z).toNat (id % 256)).getD
        (w.index x' y' z').toNat AIR = w.blocks.getD (w.index x' y' z').toNat AIR
    simp [List.getD_eq_getElem?_getD, List.getElem?_set_ne hnat]
  · have ht : w.outOfRange x' y' z' = true := (w.outOfRange_eq_true_iff x' y' z').mpr h'
    have ht' : w'.outOfRange x' y' z' = true := ht
    simp [World.getBlock, ht, ht']

/-- **C5.** Out-of-range coordinates read as `AIR` and reject writes without
mutation; in-range writes succeed and are observable (given a backing array
covering the grid and a byte-sized id); `isSolid` is the registry lookup
applied to `getBlock`. -/
theorem C5_accessor_contract (w : World) (x y z : Int) (id : Nat) :
    (¬ w.inRange x y z →
      w.getBlock x y z = AIR ∧ w.setBlock x y z id = (false, w)) ∧
    (w.inRange x y z →
      (w.setBlock x y z id).1 = true ∧
      (id < 256 → w.blocks.length = w.sizeX * w.sizeY * w.sizeZ →
        ((w.setBlock x y z id).2).getBlock x y z = id)) ∧
    w.isSolid x y z = registryIsSolid (w.getBlock x y z) := by
  refine ⟨fun h => ⟨?_, w.setBlock_fst_out x y z id h⟩, fun h => ⟨?_, ?_⟩, rfl⟩
  · have ht := (w.outOfRange_eq_true_iff x y z).mpr h
    simp [World.getBlock, ht]
  · rw [w.setBlock_fst_in x y z id h]
  · exact fun hid hlen => w.getBlock_setBlock_self x y z id h hid hlen

/-- **C5 witness.** The contract evaluated on a concrete world. -/
theorem C5_accessor_contract_witness :
    sampleWorld.getBlock 5 0 0 = AIR ∧
    ((sampleWorld.setBlock 1 1 1 7).2).getBlock 1 1 1 = 7 := by
  refine ⟨((C5_accessor_contract sampleWorld 5 0 0 7).1 (by decide)).1,
    (((C5_accessor_contract sampleWorld 1 1 1 7).2.1 (by decide)).2
      (by decide) (by decide))⟩

/-- **C10.** An in-range `setBlock` with a byte-sized id succeeds, the written
cell reads back the id, every other cell is unchanged; a failed `setBlock`
leaves the whole world unchanged. -/
theorem C10_setBlock_frame (w : World) (x y z : Int) (id : Nat) :
    (w.inRange x y z → id < 256 →
      w.blocks.length = w.sizeX * w.sizeY * w.sizeZ →
      (w.setBlock x y z id).1 = true ∧
      ((w.setBlock x y z id).2).getBlock x y z = id ∧
      ∀ x' y' z', ¬ (x' = x ∧ y' = y ∧ z' = z) →
        ((w.setBlock x y z id).2).getBlock x' y' z' = w.getBlock x' y' z') ∧
    ((w.setBlock x y z id).1 = false → (w.setBlock x y z id).2 = w) := by
  constructor
  · intro h hid hlen
    refine ⟨by rw [w.setBlock_fst_in x y z id h],
      w.getBlock_setBlock_self x y z id h hid hlen,
      fun x' y' z' hne => w.getBlock_setBlock_other x y z x' y' z' id h hne⟩
  · intro hfail
    by_cases h : w.inRange x y z
    · rw [w.setBlock_fst_in x y z id h] at hfail
      simp at hfail
    · rw [w.setBlock_fst_out x y z id h]

lemma getD_zero_of_all_zero {l : List Int} (h : ∀ a ∈ l, a = 0) (n : Nat) :
    l.getD n 0 = 0 := by
  rcases lt_or_ge n l.length with hlt | hge
  · rw [List.getD_eq_getElem?_getD, List.getElem?_eq_getElem hlt]
    exact h _ (List.getElem_mem hlt)
  · rw [List.getD_eq_getElem?_getD, List.getElem?_eq_none (by omega)]
    rfl

lemma isSolidB_meshGetBlock_of_empty {blocks : BlockArray}
    (hempty : ∀ y z x, isSolidB (blocks y z x) = false) (dims : Dims)
    (x y z : Int) : isSolidB (meshGetBlock blocks dims x y z) = false := by
  unfold meshGetBlock
  split
  · rfl
  · exact hempty y z x

lemma maskEntry_of_empty {blocks : BlockArray}
    (hempty : ∀ y z x, isSolidB (blocks y z x) = false) (dims : Dims)
    (axis u v : Nat) (d : Int) (iu jv : Nat) :
    maskEntry blocks dims axis u v d iu jv = 0 := by
  unfold maskEntry
  simp [isSolidB_meshGetBlock_of_empty hempty]

lemma buildMask_of_empty_getD {blocks : BlockArray}
    (hempty : ∀ y z x, isSolidB (blocks y z x) = false) (dims : Dims)
    (axis u v uDim vDim : Nat) (d : Int) (n : Nat) :
    (buildMask blocks dims axis u v uDim vDim d).getD n 0 = 0 := by
  apply getD_zero_of_all_zero
  intro a ha
  simp only [buildMask, List.mem_flatMap, List.mem_map, List.mem_range] at ha
  obtain ⟨jv, _, iu, _, rfl⟩ := ha
  exact maskEntry_of_empty hempty dims axis u v d iu jv

lemma mergeRow_of_zero_mask (axis u v : Nat) (sliceD : Int) (bs : ℚ)
    (uDim vDim j : Nat) {mask : List Int} (hz : ∀ n, mask.getD n 0 = 0) :
    ∀ fuel i, mergeRow axis u v sliceD bs uDim vDim j mask i fuel = ([], mask) := by
  intro fuel
  induction fuel with
  | zero => intro i; rfl
  | succ fuel ih =>
    intro i
    unfold mergeRow
    by_cases hi : i < uDim
    · simp only [hi, if_true, hz, ne_eq, not_true_eq_false, if_false]
      exact ih (i + 1)
    · simp [hi]

lemma mergeSlice_of_zero_mask (axis u v : Nat) (sliceD : Int) (bs : ℚ)
    (uDim vDim : Nat) {mask : List Int} (hz : ∀ n, mask.getD n 0 = 0) :
    mergeSlice axis u v sliceD bs uDim vDim mask = [] := by
  unfold mergeSlice
  have hfold : ∀ (L : List Nat) (qs : List Quad),
      L.foldl (fun acc j =>
        let r := mergeRow axis u v sliceD bs uDim vDim j acc.2 0 uDim
        (acc.1 ++ r.1, r.2)) (qs, mask) = (qs, mask) := by
    intro L
    induction L with
    | nil => intro qs; rfl
    | cons j L ih =>
      intro qs
      simp only [List.foldl_cons, mergeRow_of_zero_mask axis u v sliceD bs
        uDim vDim j hz uDim 0, List.append_nil]
      exact ih qs
  rw [hfold]

lemma greedyMeshQuads_of_empty {blocks : BlockArray}
    (hempty : ∀ y z x, isSolidB (blocks y z x) = false) (dims : Dims) (bs : ℚ) :
    greedyMeshQuads blocks dims bs = [] := by
  have hs : ∀ axis u v uDim vDim d,
      sliceQuads blocks dims bs axis u v uDim vDim d = [] := by
    intro axis u v uDim vDim d
    exact mergeSlice_of_zero_mask axis u v (d + 1) bs uDim vDim
      (fun n => buildMask_of_empty_getD hempty dims axis u v uDim vDim d n)
  simp [greedyMeshQuads, axisQuads, hs]

/-- **C2.** An all-empty grid meshes to no quads at all (for every dimension
and block size); the all-solid 2×2×2 grid has no interior quads (every
emitted quad lies in a boundary plane of the grid); a single solid cell
strictly inside a 3×3×3 grid yields exactly 6 quads, one per (axis, facing)
pair, each a 1×1 tile.  The mesher is a total function by construction
(degenerate inputs yield degenerate output, never an error). -/
theorem C2_degenerate_grids :
    (∀ (blocks : BlockArray) (dims : Dims) (bs : ℚ),
      (∀ y z x, isSolidB (blocks y z x) = false) →
      greedyMeshQuads blocks dims bs = []) ∧
    (∀ q ∈ greedyMeshQuads fullGridB d222 1,
      posComp q.v0 q.axis = 0 ∨ posComp q.v0 q.axis = 2) ∧
    (greedyMeshQuads singleGridB d333 1).length = 6 ∧
    (greedyMeshQuads singleGridB d333 1).map
      (fun q => (q.axis, q.positiveFacing)) =
      [(0, false), (0, true), (1, false), (1, true), (2, false), (2, true)] ∧
    ∀ q ∈ greedyMeshQuads singleGridB d333 1, q.uvWidth = 1 ∧ q.uvHeight = 1 := by
  refine ⟨fun blocks dims bs hempty => greedyMeshQuads_of_empty hempty dims bs,
    by with_unfolding_all decide, by decide, by decide,
    by with_unfolding_all decide⟩

/-- **C2 witness.** The universal empty-grid clause applied to the concrete
all-`null` grid. -/
theorem C2_degenerate_grids_witness :
    greedyMeshQuads emptyGridB d333 1 = [] :=
  C2_degenerate_grids.1 emptyGridB d333 1 (fun _ _ _ => rfl)

lemma packAO_eq : ∀ a0 < 4, ∀ a1 < 4, ∀ a2 < 4, ∀ a3 < 4,
    packAO (a0, a1, a2, a3) = a0 + 4 * a1 + 16 * a2 + 64 * a3 := by decide

lemma widthExtra_spec (mask : List Int) (n : Nat) (maskVal : Int)
    (i uDim : Nat) :
    ∀ fuel w, uDim - (i + w) ≤ fuel →
      (∀ k, w ≤ k → k < w + widthExtra mask n maskVal i uDim w fuel →
        mask.getD (n + k) 0 = maskVal) ∧
      (uDim ≤ i + w + widthExtra mask n maskVal i uDim w fuel ∨
        mask.getD (n + (w + widthExtra mask n maskVal i uDim w fuel)) 0
          ≠ maskVal) := by
  intro fuel
  induction fuel with
  | zero =>
    intro w hw
    refine ⟨fun k hk1 hk2 => absurd (lt_of_le_of_lt hk1 hk2) (by simp [widthExtra]),
      Or.inl ?_⟩
    simp only [widthExtra]
    omega
  | succ fuel ih =>
    intro w hw
    by_cases hc : i + w < uDim ∧ mask.getD (n + w) 0 = maskVal
    · have hunf : widthExtra mask n maskVal i uDim w (fuel + 1)
          = widthExtra mask n maskVal i uDim (w + 1) fuel + 1 := by
        simp only [widthExtra]
        rw [if_pos hc]
      obtain ⟨ih1, ih2⟩ := ih (w + 1) (by omega)
      constructor
      · intro k hk1 hk2
        rcases eq_or_lt_of_le hk1 with heq | hlt
        · rw [← heq]; exact hc.2
        · exact ih1 k (by omega) (by omega)
      · rcases ih2 with h | h
        · exact Or.inl (by omega)
        · refine Or.inr ?_
          have harith : w + widthExtra mask n maskVal i uDim w (fuel + 1)
              = w + 1 + widthExtra mask n maskVal i uDim (w + 1) fuel := by
            rw [hunf]; omega
          rw [harith]
          exact h
    · have hunf : widthExtra mask n maskVal i uDim w (fuel + 1) = 0 := by
        simp only [widthExtra]
        rw [if_neg hc]
      refine ⟨fun k hk1 hk2 => absurd (lt_of_le_of_lt hk1 hk2) (by omega), ?_⟩
      rw [hunf]
      rcases not_and_or.mp hc with h | h
      · exact Or.inl (by omega)
      · exact Or.inr (by simpa using h)

/-- **C1.** (i) Two encoded mask values are equal exactly when the facing
sign and all four corner AO values agree.  (ii) The greedy width loop merges
cells exactly while the encoded value matches: every cell inside the merged
width carries the anchor's encoded value, and the loop stopped at the row end
or at the first differing cell.  (iii) Two adjacent coplanar faces with
identical AO merge into one quad of combined area (2×1×1 bar: the two top
faces become a single 1×2 quad, and likewise for every other face pair).
(iv) Two adjacent coplanar faces with differing AO never merge (ground pair
with a corner occluder: the two top faces stay separate 1×1 quads with
distinct AO). -/
theorem C1_mask_merge_encoding :
    (∀ (p p' : Bool) (a0 a1 a2 a3 a0' a1' a2' a3' : Nat),
      a0 < 4 → a1 < 4 → a2 < 4 → a3 < 4 → a0' < 4 → a1' < 4 → a2' < 4 →
      a3' < 4 →
      (encodeMask p (a0, a1, a2, a3) = encodeMask p' (a0', a1', a2', a3') ↔
        (p = p' ∧ a0 = a0' ∧ a1 = a1' ∧ a2 = a2' ∧ a3 = a3'))) ∧
    (∀ (mask : List Int) (n i uDim : Nat) (maskVal : Int),
      maskVal = mask.getD n 0 →
      (∀ k < computeWidth mask n maskVal i uDim 1,
        mask.getD (n + k) 0 = maskVal) ∧
      (uDim ≤ i + computeWidth mask n maskVal i uDim 1 ∨
        mask.getD (n + computeWidth mask n maskVal i uDim 1) 0 ≠ maskVal)) ∧
    ((greedyMeshQuads rowGridB d211 1).map
        (fun q => (q.axis, q.positiveFacing)) =
      [(0, false), (0, true), (1, false), (1, true), (2, false), (2, true)] ∧
     (greedyMeshQuads rowGridB d211 1).map (fun q => (q.uvWidth, q.uvHeight)) =
      [(1, 1), (1, 1), (1, 2), (1, 2), (2, 1), (2, 1)] ∧
     (greedyMeshQuads rowGridB d211 1).map (fun q => q.ao) =
      [(3, 3, 3, 3), (3, 3, 3, 3), (3, 3, 3, 3), (3, 3, 3, 3), (3, 3, 3, 3),
       (3, 3, 3, 3)]) ∧
    (((greedyMeshQuads aoGridB d321 1).filter
        (fun q => q.axis == 1 && q.positiveFacing)).map
        (fun q => (q.uvWidth, q.uvHeight)) = [(1, 1), (1, 1), (1, 1)] ∧
     ((greedyMeshQuads aoGridB d321 1).filter
        (fun q => q.axis == 1 && q.positiveFacing)).map (fun q => q.ao) =
      [(3, 3, 3, 3), (3, 3, 2, 2), (3, 3, 3, 3)]) := by
  refine ⟨?_, ?_, ⟨by decide, by decide, by decide⟩, by decide, by decide⟩
  · intro p p' a0 a1 a2 a3 a0' a1' a2' a3' h0 h1 h2 h3 h0' h1' h2' h3'
    have hp := packAO_eq a0 h0 a1 h1 a2 h2 a3 h3
    have hp' := packAO_eq a0' h0' a1' h1' a2' h2' a3' h3'
    unfold encodeMask
    rw [hp, hp']
    cases p <;> cases p' <;> simp <;> omega
  · intro mask n i uDim maskVal hmv
    obtain ⟨h1, h2⟩ := widthExtra_spec mask n maskVal i uDim uDim 1 (by omega)
    refine ⟨fun k hk => ?_, ?_⟩
    · rcases Nat.eq_zero_or_pos k with rfl | hk0
      · simpa using hmv.symm
      · exact h1 k (by omega) (by simpa [computeWidth] using hk)
    · rcases h2 with h | h
      · exact Or.inl (by simp only [computeWidth]; omega)
      · exact Or.inr (by simpa [computeWidth] using h)

/-- **C1 witness.** The encoding-equality and width-loop clauses applied at
concrete values: opposite facings never compare equal even with identical AO,
and a concrete mask `[5, 5, 0]` merges its second cell. -/
theorem C1_mask_merge_encoding_witness :
    encodeMask true (3, 3, 3, 3) ≠ encodeMask false (3, 3, 3, 3) ∧
    [5, 5, 0].getD (0 + 1) 0 = (5 : Int) := by
  constructor
  · intro h
    have := (C1_mask_merge_encoding.1 true false 3 3 3 3 3 3 3 3
      (by decide) (by decide) (by decide) (by decide) (by decide) (by decide)
      (by decide) (by decide)).mp h
    exact absurd this.1 (by decide)
  · exact (C1_mask_merge_encoding.2.1 [5, 5, 0] 0 0 3 5 rfl).1 1 (by decide)

lemma foldl_id {α β : Type*} {f : α → β → α} :
    ∀ l : List β, (∀ a x, x ∈ l → f a x = a) → ∀ init : α,
      l.foldl f init = init := by
  intro l
  induction l with
  | nil => intro _ init; rfl
  | cons x l ih =>
    intro hid init
    rw [List.foldl_cons, hid _ _ (List.mem_cons_self x l)]
    exact ih (fun a y hy => hid a y (List.mem_cons_of_mem x hy)) init

lemma foldl_hit_fixed {α β : Type*} {f : α → β → α} {b : β} {tgt : α}
    (hid : ∀ a x, x ≠ b → f a x = a) (hhit : ∀ a, f a b = tgt) :
    ∀ l : List β, l.foldl f tgt = tgt := by
  intro l
  induction l with
  | nil => rfl
  | cons x l ih =>
    rw [List.foldl_cons]
    by_cases hx : x = b
    · rw [hx, hhit]; exact ih
    · rw [hid _ _ hx]; exact ih

lemma foldl_hit {α β : Type*} {f : α → β → α} {b : β} {tgt : α}
    (hid : ∀ a x, x ≠ b → f a x = a) (hhit : ∀ a, f a b = tgt) :
    ∀ (l : List β) (init : α), b ∈ l → l.foldl f init = tgt := by
  intro l
  induction l with
  | nil => intro init h; cases h
  | cons x l ih =>
    intro init hmem
    rw [List.foldl_cons]
    by_cases hx : x = b
    · rw [hx, hhit]; exact foldl_hit_fixed hid hhit l
    · rw [hid _ _ hx]
      rcases List.mem_cons.mp hmem with h | h
      · exact absurd h.symm hx
      · exact ih init h

lemma mem_cellRange {lo hi a : Int} : a ∈ cellRange lo hi ↔ lo ≤ a ∧ a ≤ hi := by
  unfold cellRange
  rw [List.mem_map]
  constructor
  · rintro ⟨k, hk, rfl⟩
    rw [List.mem_range] at hk
    omega
  · intro ⟨h1, h2⟩
    exact ⟨(a - lo).toNat, List.mem_range.mpr (by omega), by omega⟩

lemma foldl_pair_mono {β : Type*} {f : (ℚ × Bool) → β → (ℚ × Bool)}
    (hmono : ∀ a x, a.2 = true → (f a x).2 = true) :
    ∀ (l : List β) (init : ℚ × Bool), init.2 = true →
      (l.foldl f init).2 = true := by
  intro l
  induction l with
  | nil => intro init h; exact h
  | cons x l ih => intro init h; rw [List.foldl_cons]; exact ih _ (hmono init x h)

lemma foldl_id_or_true {β : Type*} {f : (ℚ × Bool) → β → (ℚ × Bool)}
    (hf : ∀ a x, f a x = a ∨ (f a x).2 = true)
    (hmono : ∀ a x, a.2 = true → (f a x).2 = true) :
    ∀ (l : List β) (init : ℚ × Bool),
      l.foldl f init = init ∨ (l.foldl f init).2 = true := by
  intro l
  induction l with
  | nil => intro init; exact Or.inl rfl
  | cons x l ih =>
    intro init
    rw [List.foldl_cons]
    rcases hf init x with heq | htrue
    · rw [heq]; exact ih init
    · exact Or.inr (foldl_pair_mono hmono l _ htrue)

lemma collIsSolid_oneCell_ne {c : Int × Int × Int} (dims : Dims) {x y z : Int}
    (h : ¬ (x = c.1 ∧ y = c.2.1 ∧ z = c.2.2)) :
    collIsSolid (oneCellGridB c) x y z dims = false := by
  unfold collIsSolid oneCellGridB
  rw [if_neg h]
  split
  · rfl
  · rfl

lemma collIsSolid_oneCell_eq (c : Int × Int × Int) (dims : Dims)
    (hc : 0 ≤ c.1 ∧ c.1 < dims.x ∧ 0 ≤ c.2.1 ∧ c.2.1 < dims.y ∧ 0 ≤ c.2.2 ∧
      c.2.2 < dims.z) :
    collIsSolid (oneCellGridB c) c.1 c.2.1 c.2.2 dims = true := by
  unfold collIsSolid oneCellGridB
  rw [if_neg (by omega), if_pos ⟨rfl, rfl, rfl⟩]
  rfl

lemma resolveX_oneCell_hit (px py pz : ℚ) (c : Int × Int × Int) (dims : Dims)
    (bs hw ht d : ℚ)
    (hc : 0 ≤ c.1 ∧ c.1 < dims.x ∧ 0 ≤ c.2.1 ∧ c.2.1 < dims.y ∧ 0 ≤ c.2.2 ∧
      c.2.2 < dims.z)
    (hd : 0 < d)
    (hx : ⌊(px - hw) / bs⌋ ≤ c.1 ∧ c.1 ≤ ⌊(px + hw - collisionEPS) / bs⌋)
    (hy : ⌊(py - ht) / bs⌋ ≤ c.2.1 ∧ c.2.1 ≤ ⌊(py - collisionEPS) / bs⌋)
    (hz : ⌊(pz - hw) / bs⌋ ≤ c.2.2 ∧ c.2.2 ≤ ⌊(pz + hw - collisionEPS) / bs⌋) :
    resolveX px py pz (oneCellGridB c) dims bs hw ht d
      = ((c.1 : ℚ) * bs - hw, true) := by
  apply foldl_hit (b := c.2.1)
  · intro acc yb hne
    apply foldl_id
    intro a zb _
    apply foldl_id
    intro a' xb _
    rw [collIsSolid_oneCell_ne dims (fun hcontra => hne hcontra.2.1)]
    rfl
  · intro acc
    apply foldl_hit (b := c.2.2)
    · intro a zb hne
      apply foldl_id
      intro a' xb _
      rw [collIsSolid_oneCell_ne dims (fun hcontra => hne hcontra.2.2)]
      rfl
    · intro a
      apply foldl_hit (b := c.1)
      · intro a' xb hne
        rw [collIsSolid_oneCell_ne dims (fun hcontra => hne hcontra.1)]
        rfl
      · intro a'
        rw [collIsSolid_oneCell_eq c dims hc]
        rw [if_pos rfl, if_pos hd]
      · exact mem_cellRange.mpr hx
    · exact mem_cellRange.mpr hz
  · exact mem_cellRange.mpr hy

lemma resolveX_oneCell_miss (px py pz : ℚ) (c : Int × Int × Int) (dims : Dims)
    (bs hw ht d : ℚ)
    (hmiss : ¬ ((⌊(px - hw) / bs⌋ ≤ c.1 ∧ c.1 ≤ ⌊(px + hw - collisionEPS) / bs⌋)
      ∧ (⌊(py - ht) / bs⌋ ≤ c.2.1 ∧ c.2.1 ≤ ⌊(py - collisionEPS) / bs⌋)
      ∧ (⌊(pz - hw) / bs⌋ ≤ c.2.2 ∧
          c.2.2 ≤ ⌊(pz + hw - collisionEPS) / bs⌋))) :
    resolveX px py pz (oneCellGridB c) dims bs hw ht d = (px, false) := by
  apply foldl_id
  intro acc yb hyb
  apply foldl_id
  intro a zb hzb
  apply foldl_id
  intro a' xb hxb
  have hne : ¬ (xb = c.1 ∧ yb = c.2.1 ∧ zb = c.2.2) := by
    rintro ⟨rfl, rfl, rfl⟩
    exact hmiss ⟨mem_cellRange.mp hxb, mem_cellRange.mp hyb,
      mem_cellRange.mp hzb⟩
  rw [collIsSolid_oneCell_ne dims hne]
  rfl

lemma fold3_cases {f : (ℚ × Bool) → Int → Int → Int → (ℚ × Bool)}
    (hf : ∀ a yb zb xb, f a yb zb xb = a ∨ (f a yb zb xb).2 = true)
    (hmono : ∀ a yb zb xb, a.2 = true → (f a yb zb xb).2 = true)
    (ly lz lx : List Int) (init : ℚ × Bool) :
    (ly.foldl (fun acc yb => lz.foldl (fun acc zb =>
        lx.foldl (fun acc xb => f acc yb zb xb) acc) acc) init) = init ∨
      (ly.foldl (fun acc yb => lz.foldl (fun acc zb =>
        lx.foldl (fun acc xb => f acc yb zb xb) acc) acc) init).2 = true := by
  apply foldl_id_or_true
  · intro a yb
    apply foldl_id_or_true
    · intro a' zb
      apply foldl_id_or_true
      · exact fun a'' xb => hf a'' yb zb xb
      · exact fun a'' xb => hmono a'' yb zb xb
    · intro a' zb h2
      exact foldl_pair_mono (fun a'' xb => hmono a'' yb zb xb) _ _ h2
  · intro a yb h2
    refine foldl_pair_mono ?_ _ _ h2
    intro a' zb h3
    exact foldl_pair_mono (fun a'' xb => hmono a'' yb zb xb) _ _ h3

lemma resolveX_cases (px py pz : ℚ) (blocks : BlockArray) (dims : Dims)
    (bs hw ht d : ℚ) :
    resolveX px py pz blocks dims bs hw ht d = (px, false) ∨
      (resolveX px py pz blocks dims bs hw ht d).2 = true := by
  apply fold3_cases
  · intro a yb zb xb
    by_cases hs : collIsSolid blocks xb yb zb dims
    · right
      simp only [hs, if_true]
      split_ifs <;> rfl
    · left
      simp [hs]
  · intro a yb zb xb h2
    by_cases hs : collIsSolid blocks xb yb zb dims
    · simp only [hs, if_true]
      split_ifs <;> rfl
    · simpa [hs] using h2

lemma resolveZ_cases (px py pz : ℚ) (blocks : BlockArray) (dims : Dims)
    (bs hw ht d : ℚ) :
    resolveZ px py pz blocks dims bs hw ht d = (pz, false) ∨
      (resolveZ px py pz blocks dims bs hw ht d).2 = true := by
  apply fold3_cases
  · intro a yb zb xb
    by_cases hs : collIsSolid blocks xb yb zb dims
    · right
      simp only [hs, if_true]
      split_ifs <;> rfl
    · left
      simp [hs]
  · intro a yb zb xb h2
    by_cases hs : collIsSolid blocks xb yb zb dims
    · simp only [hs, if_true]
      split_ifs <;> rfl
    · simpa [hs] using h2

lemma resolveX_not_collided (px py pz : ℚ) (blocks : BlockArray) (dims : Dims)
    (bs hw ht d : ℚ)
    (h : (resolveX px py pz blocks dims bs hw ht d).2 = false) :
    (resolveX px py pz blocks dims bs hw ht d).1 = px := by
  rcases resolveX_cases px py pz blocks dims bs hw ht d with heq | htrue
  · rw [heq]
  · rw [h] at htrue; cases htrue

lemma resolveZ_not_collided (px py pz : ℚ) (blocks : BlockArray) (dims : Dims)
    (bs hw ht d : ℚ)
    (h : (resolveZ px py pz blocks dims bs hw ht d).2 = false) :
    (resolveZ px py pz blocks dims bs hw ht d).1 = pz := by
  rcases resolveZ_cases px py pz blocks dims bs hw ht d with heq | htrue
  · rw [heq]
  · rw [h] at htrue; cases htrue

/-- **C8.** Wall slide: for every position, delta and grid, an axis whose
resolution reports no collision keeps its full delta — if `collidedX` is
false the final X is `pos.x + delta.x`, and if `collidedZ` is false the final
Z is `pos.z + delta.z` (axes are resolved sequentially X, Z, Y, so a wall
blocking only one horizontal axis leaves the other axis's motion fully
applied). -/
theorem C8_wall_slide (pos delta : ℚ × ℚ × ℚ) (blocks : BlockArray)
    (dims : Dims) (bs hw ht : ℚ) :
    ((moveAndCollide pos delta blocks dims bs hw ht).2.collidedX = false →
      (moveAndCollide pos delta blocks dims bs hw ht).1.1
        = pos.1 + delta.1) ∧
    ((moveAndCollide pos delta blocks dims bs hw ht).2.collidedZ = false →
      (moveAndCollide pos delta blocks dims bs hw ht).1.2.2
        = pos.2.2 + delta.2.2) := by
  constructor
  · intro h
    exact resolveX_not_collided (pos.1 + delta.1) pos.2.1 pos.2.2 blocks dims
      bs hw ht delta.1 h
  · intro h
    exact resolveZ_not_collided
      (resolveX (pos.1 + delta.1) pos.2.1 pos.2.2 blocks dims bs hw ht
        delta.1).1
      pos.2.1 (pos.2.2 + delta.2.2) blocks dims bs hw ht delta.2.2 h

/-- **C8 witness.** A diagonal move into a wall that blocks only X: the X
axis collides (stopping at 3/4) while Z keeps its full delta, ending at
`1/4 + 1/4 = 1/2`. -/
theorem C8_wall_slide_witness :
    (moveAndCollide ((1 : ℚ)/2, 1/2, 1/4) (3/5, 0, 1/4) (oneCellGridB (1, 0, 0))
      ⟨2, 1, 1⟩ 1 (1/4) (1/2)).2.collidedX = true ∧
    (moveAndCollide ((1 : ℚ)/2, 1/2, 1/4) (3/5, 0, 1/4) (oneCellGridB (1, 0, 0))
      ⟨2, 1, 1⟩ 1 (1/4) (1/2)).1.2.2 = 1/2 := by
  refine ⟨by with_unfolding_all decide, ?_⟩
  have h := (C8_wall_slide ((1 : ℚ)/2, 1/2, 1/4) (3/5, 0, 1/4)
    (oneCellGridB (1, 0, 0)) ⟨2, 1, 1⟩ 1 (1/4) (1/2)).2
    (by with_unfolding_all decide)
  rw [h]
  norm_num

/-- **C3.** A box moving by `dX > 0` into the single solid cell `c`: whenever
the post-move box overlaps the cell's column (the code's floor-derived Y/Z
ranges contain `cy`, `cz`, and the box has not passed the cell), then if the
post-move right edge reaches the cell, `collidedX = true` and the final X is
exactly `cx·bs − hw` (the near face minus the half-width), independent of the
overlap depth; if it does not reach the cell, X keeps its full delta and no
collision is flagged; in both cases the box's right edge never ends beyond
the near face by more than the collision epsilon, so the move cannot tunnel
through the cell (any `dX < bs` from a start at or left of the face satisfies
`hxmin`). -/
theorem C3_plus_x_collision (pos : ℚ × ℚ × ℚ) (dX : ℚ) (c : Int × Int × Int)
    (dims : Dims) (bs hw ht : ℚ)
    (hc : 0 ≤ c.1 ∧ c.1 < dims.x ∧ 0 ≤ c.2.1 ∧ c.2.1 < dims.y ∧ 0 ≤ c.2.2 ∧
      c.2.2 < dims.z)
    (hd : 0 < dX) (hbs : 0 < bs)
    (hy : ⌊(pos.2.1 - ht) / bs⌋ ≤ c.2.1 ∧
      c.2.1 ≤ ⌊(pos.2.1 - collisionEPS) / bs⌋)
    (hz : ⌊(pos.2.2 - hw) / bs⌋ ≤ c.2.2 ∧
      c.2.2 ≤ ⌊(pos.2.2 + hw - collisionEPS) / bs⌋)
    (hxmin : ⌊(pos.1 + dX - hw) / bs⌋ ≤ c.1) :
    (c.1 ≤ ⌊(pos.1 + dX + hw - collisionEPS) / bs⌋ →
      (moveAndCollide pos (dX, 0, 0) (oneCellGridB c) dims bs hw
        ht).2.collidedX = true ∧
      (moveAndCollide pos (dX, 0, 0) (oneCellGridB c) dims bs hw ht).1.1
        = (c.1 : ℚ) * bs - hw) ∧
    (¬ c.1 ≤ ⌊(pos.1 + dX + hw - collisionEPS) / bs⌋ →
      (moveAndCollide pos (dX, 0, 0) (oneCellGridB c) dims bs hw
        ht).2.collidedX = false ∧
      (moveAndCollide pos (dX, 0, 0) (oneCellGridB c) dims bs hw ht).1.1
        = pos.1 + dX) ∧
    (moveAndCollide pos (dX, 0, 0) (oneCellGridB c) dims bs hw ht).1.1 + hw
      ≤ (c.1 : ℚ) * bs + collisionEPS := by
  have hfst : (moveAndCollide pos (dX, 0, 0) (oneCellGridB c) dims bs hw
      ht).1.1 = (resolveX (pos.1 + dX) pos.2.1 pos.2.2 (oneCellGridB c) dims
      bs hw ht dX).1 := rfl
  have hflag : (moveAndCollide pos (dX, 0, 0) (oneCellGridB c) dims bs hw
      ht).2.collidedX = (resolveX (pos.1 + dX) pos.2.1 pos.2.2 (oneCellGridB c)
      dims bs hw ht dX).2 := rfl
  by_cases hreach : c.1 ≤ ⌊(pos.1 + dX + hw - collisionEPS) / bs⌋
  · have hres := resolveX_oneCell_hit (pos.1 + dX) pos.2.1 pos.2.2 c dims bs
      hw ht dX hc hd ⟨hxmin, hreach⟩ hy hz
    refine ⟨fun _ => ⟨?_, ?_⟩, fun hn => absurd hreach hn, ?_⟩
    · rw [hflag, hres]
    · rw [hfst, hres]
    · rw [hfst, hres]
      show (c.1 : ℚ) * bs - hw + hw ≤ (c.1 : ℚ) * bs + collisionEPS
      have heps : (0 : ℚ) < collisionEPS := by norm_num [collisionEPS]
      linarith
  · have hres := resolveX_oneCell_miss (pos.1 + dX) pos.2.1 pos.2.2 c dims bs
      hw ht dX (fun hcontra => hreach hcontra.1.2)
    refine ⟨fun hr => absurd hr hreach, fun _ => ⟨?_, ?_⟩, ?_⟩
    · rw [hflag, hres]
    · rw [hfst, hres]
    · rw [hfst, hres]
      show pos.1 + dX + hw ≤ (c.1 : ℚ) * bs + collisionEPS
      have hlt : (pos.1 + dX + hw - collisionEPS) / bs < (c.1 : ℚ) := by
        have := Int.lt_floor_add_one ((pos.1 + dX + hw - collisionEPS) / bs)
        have h2 : ⌊(pos.1 + dX + hw - collisionEPS) / bs⌋ + 1 ≤ c.1 := by omega
        calc (pos.1 + dX + hw - collisionEPS) / bs
            < (⌊(pos.1 + dX + hw - collisionEPS) / bs⌋ : ℚ) + 1 := this
          _ ≤ (c.1 : ℚ) := by exact_mod_cast h2
      have := (div_lt_iff₀ hbs).mp hlt
      linarith

/-- **C3 witness.** A concrete box (half-width 1/4, height 1/2) at
`(1/2, 1/2, 1/4)` moving `+3/5` along X into the single solid cell `(1,0,0)`
of a 2×1×1 grid with unit block size stops exactly at `x = 3/4` with
`collidedX = true`. -/
theorem C3_plus_x_collision_witness :
    (moveAndCollide ((1 : ℚ)/2, 1/2, 1/4) (3/5, 0, 0) (oneCellGridB (1, 0, 0))
      ⟨2, 1, 1⟩ 1 (1/4) (1/2)).2.collidedX = true ∧
    (moveAndCollide ((1 : ℚ)/2, 1/2, 1/4) (3/5, 0, 0) (oneCellGridB (1, 0, 0))
      ⟨2, 1, 1⟩ 1 (1/4) (1/2)).1.1 = 3/4 := by
  have h := (C3_plus_x_collision ((1 : ℚ)/2, 1/2, 1/4) (3/5) (1, 0, 0)
    ⟨2, 1, 1⟩ 1 (1/4) (1/2)
    (by constructor <;> norm_num)
    (by norm_num) (by norm_num)
    (by constructor <;> with_unfolding_all decide)
    (by constructor <;> with_unfolding_all decide)
    (by with_unfolding_all decide)).1 (by with_unfolding_all decide)
  refine ⟨h.1, by rw [h.2]; norm_num⟩

lemma snapSmall_mem (v thr : ℚ) : snapSmall v thr = 0 ∨ snapSmall v thr = v := by
  unfold snapSmall
  split_ifs <;> simp

lemma integrateVertical_bounds (v gStep vdp : ℚ) (hg : 0 ≤ gStep)
    (h0 : 0 ≤ vdp) (h1 : vdp ≤ 1) (hv : v ≤ 196/5) :
    TERMINAL_VELOCITY ≤ integrateVertical v gStep vdp ∧
      integrateVertical v gStep vdp ≤ 196/5 := by
  unfold integrateVertical TERMINAL_VELOCITY
  split_ifs with h
  · norm_num
  · push_neg at h
    refine ⟨h, ?_⟩
    rcases le_or_lt 0 (v - gStep) with hpos | hneg
    · have hm := mul_le_mul_of_nonneg_left h1 hpos
      rw [mul_one] at hm
      linarith
    · nlinarith [mul_nonneg h0 (neg_nonneg.mpr hneg.le)]

lemma physicsTick_velY_shape (s : PlayerState) (spaceDown moveKeyDown : Bool)
    (dir facingUnit : ℚ × ℚ) (facingPos : Bool) (pos : ℚ × ℚ × ℚ)
    (blocks : BlockArray) (dims : Dims) (bs hw ht dt gdp adp vdp : ℚ) :
    ∃ og ceil jumped : Bool,
      (physicsTick s spaceDown moveKeyDown dir facingUnit facingPos pos blocks
        dims bs hw ht dt gdp adp vdp).1.velY
        = integrateVertical
            (if ceil then 0 else if og then 0
             else if jumped then JUMP_VELOCITY
             else snapSmall s.velY (NEGLIGIBLE_THRESHOLD * (dt / MC_TICK)))
            (GRAVITY * (dt / MC_TICK)) vdp :=
  ⟨_, _, _, rfl⟩

lemma physicsTick_velY_bounds (s : PlayerState) (spaceDown moveKeyDown : Bool)
    (dir facingUnit : ℚ × ℚ) (facingPos : Bool) (pos : ℚ × ℚ × ℚ)
    (blocks : BlockArray) (dims : Dims) (bs hw ht dt gdp adp vdp : ℚ)
    (hdt : 0 ≤ dt) (h0 : 0 ≤ vdp) (h1 : vdp ≤ 1) (hv : s.velY ≤ 196/5) :
    TERMINAL_VELOCITY ≤ (physicsTick s spaceDown moveKeyDown dir facingUnit
      facingPos pos blocks dims bs hw ht dt gdp adp vdp).1.velY ∧
    (physicsTick s spaceDown moveKeyDown dir facingUnit facingPos pos blocks
      dims bs hw ht dt gdp adp vdp).1.velY ≤ 196/5 := by
  obtain ⟨og, ceil, jumped, hshape⟩ := physicsTick_velY_shape s spaceDown
    moveKeyDown dir facingUnit facingPos pos blocks dims bs hw ht dt gdp adp
    vdp
  rw [hshape]
  apply integrateVertical_bounds
  · exact mul_nonneg (by norm_num [GRAVITY])
      (div_nonneg hdt (by norm_num [MC_TICK]))
  · exact h0
  · exact h1
  · split_ifs
    · norm_num
    · norm_num
    · norm_num [JUMP_VELOCITY]
    · rcases snapSmall_mem s.velY (NEGLIGIBLE_THRESHOLD * (dt / MC_TICK))
        with h | h <;> rw [h]
      · norm_num
      · exact hv

lemma integrateVertical_floor (v gStep vdp : ℚ) :
    TERMINAL_VELOCITY ≤ integrateVertical v gStep vdp := by
  unfold integrateVertical
  split_ifs with h
  · exact le_refl TERMINAL_VELOCITY
  · exact le_of_not_lt h

lemma physicsTick_velY_floor (s : PlayerState) (spaceDown moveKeyDown : Bool)
    (dir facingUnit : ℚ × ℚ) (facingPos : Bool) (pos : ℚ × ℚ × ℚ)
    (blocks : BlockArray) (dims : Dims) (bs hw ht dt gdp adp vdp : ℚ) :
    TERMINAL_VELOCITY ≤ (physicsTick s spaceDown moveKeyDown dir facingUnit
      facingPos pos blocks dims bs hw ht dt gdp adp vdp).1.velY := by
  obtain ⟨og, ceil, jumped, hshape⟩ := physicsTick_velY_shape s spaceDown
    moveKeyDown dir facingUnit facingPos pos blocks dims bs hw ht dt gdp adp
    vdp
  rw [hshape]
  exact integrateVertical_floor _ _ _

/-- **C9.** Vertical velocity stays bounded by the terminal speed: every
state reachable from the initial state by ticks with `dt ≥ 0` and a vertical
drag power in `[0, 1]` (the range of `VERTICAL_DRAG ** t` for `t ≥ 0`) has
`|velY| ≤ 39.2`; moreover the clamp makes `velY ≥ −39.2` unconditional after
any tick whatsoever.  The tick's vertical integration is: subtract
`GRAVITY · t`, multiply by the vertical drag power, clamp at
`TERMINAL_VELOCITY`. -/
theorem C9_terminal_velocity :
    (∀ s : PlayerState, ReachableState s → |s.velY| ≤ 196/5) ∧
    (∀ (s : PlayerState) (spaceDown moveKeyDown : Bool)
       (dir facingUnit : ℚ × ℚ) (facingPos : Bool) (pos : ℚ × ℚ × ℚ)
       (blocks : BlockArray) (dims : Dims) (bs hw ht dt gdp adp vdp : ℚ),
      TERMINAL_VELOCITY ≤ (physicsTick s spaceDown moveKeyDown dir facingUnit
        facingPos pos blocks dims bs hw ht dt gdp adp vdp).1.velY) := by
  constructor
  · intro s hreach
    induction hreach with
    | init => norm_num [createPlayerState]
    | step s0 spaceDown moveKeyDown dir facingUnit facingPos pos blocks dims
        bs hw ht dt gdp adp vdp hdt hv0 hv1 hr ih =>
      have hub : s0.velY ≤ 196/5 := (abs_le.mp ih).2
      have hb := physicsTick_velY_bounds s0 spaceDown moveKeyDown dir
        facingUnit facingPos pos blocks dims bs hw ht dt gdp adp vdp hdt hv0
        hv1 hub
      rw [abs_le]
      refine ⟨?_, hb.2⟩
      have := hb.1
      unfold TERMINAL_VELOCITY at this
      linarith
  · intro s spaceDown moveKeyDown dir facingUnit facingPos pos blocks dims bs
      hw ht dt gdp adp vdp
    exact physicsTick_velY_floor s spaceDown moveKeyDown dir facingUnit
      facingPos pos blocks dims bs hw ht dt gdp adp vdp

/-- **C9 witness.** The bound applied to the initial state (reachable by the
empty tick sequence). -/
theorem C9_terminal_velocity_witness : |createPlayerState.velY| ≤ 196/5 :=
  C9_terminal_velocity.1 createPlayerState ReachableState.init

lemma rayLoop_eq_trace (w : World) (stepX stepY stepZ : Int)
    (tDX tDY tDZ : Option ℚ) (mdb : ℚ) :
    ∀ (fuel : Nat) (bx yv bz : Int) (tMaxX tMaxY tMaxZ t : Option ℚ),
      rayLoop w stepX stepY stepZ tDX tDY tDZ mdb fuel bx yv bz tMaxX tMaxY
          tMaxZ t
        = ((rayTrace w stepX stepY stepZ tDX tDY tDZ mdb fuel bx yv bz tMaxX
            tMaxY tMaxZ t).find?
            (fun e => w.isSolid e.1.1 e.1.2.1 e.1.2.2)).map
            (traceHit stepX stepY stepZ w.blockSize) := by
  intro fuel
  induction fuel with
  | zero => intros; rfl
  | succ fuel ih =>
    intro bx yv bz tMaxX tMaxY tMaxZ t
    unfold rayLoop rayTrace
    by_cases hguard : optLt t (some mdb) = true
    swap
    · simp only [hguard, Bool.false_eq_true, if_false, List.find?_nil,
        Option.map_none']
    by_cases hx : (optLt tMaxX tMaxY && optLt tMaxX tMaxZ) = true
    · simp only [hguard, hx, if_true]
      by_cases hbreak : optLt tMaxX (some mdb) = true
      swap
      · simp only [hbreak, Bool.false_eq_true, if_false, List.find?_nil,
          Option.map_none']
      simp only [hbreak, if_true]
      by_cases hsolid : w.isSolid (bx + stepX) yv bz = true
      · simp only [hsolid, if_true]
        rw [List.find?_cons_of_pos _ (by simpa using hsolid)]
        rfl
      · simp only [hsolid, Bool.false_eq_true, if_false]
        rw [List.find?_cons_of_neg _ (by simpa using hsolid)]
        exact ih (bx + stepX) yv bz (optAdd tMaxX tDX) tMaxY tMaxZ tMaxX
    · by_cases hy : optLt tMaxY tMaxZ = true
      · simp only [hguard, hx, hy, Bool.false_eq_true, if_false, if_true]
        by_cases hbreak : optLt tMaxY (some mdb) = true
        swap
        · simp only [hbreak, Bool.false_eq_true, if_false, List.find?_nil,
            Option.map_none']
        simp only [hbreak, if_true]
        by_cases hsolid : w.isSolid bx (yv + stepY) bz = true
        · simp only [hsolid, if_true]
          rw [List.find?_cons_of_pos _ (by simpa using hsolid)]
          rfl
        · simp only [hsolid, Bool.false_eq_true, if_false]
          rw [List.find?_cons_of_neg _ (by simpa using hsolid)]
          exact ih bx (yv + stepY) bz tMaxX (optAdd tMaxY tDY) tMaxZ tMaxY
      · simp only [hguard, hx, hy, Bool.false_eq_true, if_false, if_true]
        by_cases hbreak : optLt tMaxZ (some mdb) = true
        swap
        · simp only [hbreak, Bool.false_eq_true, if_false, List.find?_nil,
            Option.map_none']
        simp only [hbreak, if_true]
        by_cases hsolid : w.isSolid bx yv (bz + stepZ) = true
        · simp only [hsolid, if_true]
          rw [List.find?_cons_of_pos _ (by simpa using hsolid)]
          rfl
        · simp only [hsolid, Bool.false_eq_true, if_false]
          rw [List.find?_cons_of_neg _ (by simpa using hsolid)]
          exact ih bx yv (bz + stepZ) tMaxX tMaxY (optAdd tMaxZ tDZ) tMaxZ

lemma rayTrace_invariant (w : World) (stepX stepY stepZ : Int)
    (tDX tDY tDZ : Option ℚ) (mdb : ℚ) (x0 y0 z0 : Int)
    (hdx : tDX = none ↔ stepX = 0) (hdy : tDY = none ↔ stepY = 0)
    (hdz : tDZ = none ↔ stepZ = 0) :
    ∀ (fuel : Nat) (bx yv bz : Int) (tMaxX tMaxY tMaxZ t : Option ℚ),
      (tMaxX = none ↔ stepX = 0) → (tMaxY = none ↔ stepY = 0) →
      (tMaxZ = none ↔ stepZ = 0) →
      (∃ k : Nat, bx = x0 + stepX * k) → (∃ k : Nat, yv = y0 + stepY * k) →
      (∃ k : Nat, bz = z0 + stepZ * k) →
      ∀ e ∈ rayTrace w stepX stepY stepZ tDX tDY tDZ mdb fuel bx yv bz tMaxX
          tMaxY tMaxZ t,
        e.1 ≠ (x0, y0, z0) ∧ e.2.2 < mdb ∧
        ((e.2.1 = 0 ∧ stepX ≠ 0) ∨ (e.2.1 = 1 ∧ stepY ≠ 0) ∨
          (e.2.1 = 2 ∧ stepZ ≠ 0)) := by
  intro fuel
  induction fuel with
  | zero =>
    intro bx yv bz tMaxX tMaxY tMaxZ t _ _ _ _ _ _ e he
    simp [rayTrace] at he
  | succ fuel ih =>
    intro bx yv bz tMaxX tMaxY tMaxZ t hmx hmy hmz hkx hky hkz e he
    unfold rayTrace at he
    by_cases hguard : optLt t (some mdb) = true
    swap
    · simp [hguard] at he
    simp only [hguard, if_true] at he
    by_cases hx : (optLt tMaxX tMaxY && optLt tMaxX tMaxZ) = true
    · simp only [hx, if_true] at he
      by_cases hbreak : optLt tMaxX (some mdb) = true
      swap
      · simp [hbreak] at he
      obtain ⟨q, hq⟩ : ∃ q, tMaxX = some q := by
        rcases tMaxX with _ | q
        · simp [optLt] at hbreak
        · exact ⟨q, rfl⟩
      have hsx : stepX ≠ 0 := fun h0 => by simp [hmx.mpr h0] at hq
      simp only [hbreak, if_true, List.mem_cons] at he
      rcases he with rfl | he
      · obtain ⟨kx, hkx'⟩ := hkx
        refine ⟨?_, ?_, Or.inl ⟨rfl, hsx⟩⟩
        · intro hcontra
          simp only [Prod.ext_iff] at hcontra
          have h1 : bx + stepX = x0 := hcontra.1
          rw [hkx'] at h1
          have h2 : stepX * ((kx : Int) + 1) = 0 := by ring_nf; ring_nf at h1
            <;> linarith
          exact mul_ne_zero hsx (by omega) h2
        · show tMaxX.getD 0 < mdb
          rw [hq]
          simpa [optLt, hq] using hbreak
      · refine ih (bx + stepX) yv bz (optAdd tMaxX tDX) tMaxY tMaxZ tMaxX
          ?_ hmy hmz ?_ hky hkz e he
        · constructor
          · intro hnone
            rcases htd : tDX with _ | b
            · exact hdx.mp htd
            · rw [hq, htd] at hnone
              simp [optAdd] at hnone
          · intro h0
            exact absurd h0 hsx
        · obtain ⟨k, hk⟩ := hkx
          exact ⟨k + 1, by rw [hk]; push_cast; ring⟩
    · simp only [hx, Bool.false_eq_true, if_false] at he
      by_cases hy : optLt tMaxY tMaxZ = true
      · simp only [hy, if_true] at he
        by_cases hbreak : optLt tMaxY (some mdb) = true
        swap
        · simp [hbreak] at he
        obtain ⟨q, hq⟩ : ∃ q, tMaxY = some q := by
          rcases tMaxY with _ | q
          · simp [optLt] at hbreak
          · exact ⟨q, rfl⟩
        have hsy : stepY ≠ 0 := fun h0 => by simp [hmy.mpr h0] at hq
        simp only [hbreak, if_true, List.mem_cons] at he
        rcases he with rfl | he
        · obtain ⟨ky, hky'⟩ := hky
          refine ⟨?_, ?_, Or.inr (Or.inl ⟨rfl, hsy⟩)⟩
          · intro hcontra
            simp only [Prod.ext_iff] at hcontra
            have h1 : yv + stepY = y0 := hcontra.2.1
            rw [hky'] at h1
            have h2 : stepY * ((ky : Int) + 1) = 0 := by ring_nf; ring_nf at h1
              <;> linarith
            exact mul_ne_zero hsy (by omega) h2
          · show tMaxY.getD 0 < mdb
            rw [hq]
            simpa [optLt, hq] using hbreak
        · refine ih bx (yv + stepY) bz tMaxX (optAdd tMaxY tDY) tMaxZ tMaxY
            hmx ?_ hmz hkx ?_ hkz e he
          · constructor
            · intro hnone
              rcases htd : tDY with _ | b
              · exact hdy.mp htd
              · rw [hq, htd] at hnone
                simp [optAdd] at hnone
            · intro h0
              exact absurd h0 hsy
          · obtain ⟨k, hk⟩ := hky
            exact ⟨k + 1, by rw [hk]; push_cast; ring⟩
      · simp only [hy, Bool.false_eq_true, if_false] at he
        by_cases hbreak : optLt tMaxZ (some mdb) = true
        swap
        · simp [hbreak] at he
        obtain ⟨q, hq⟩ : ∃ q, tMaxZ = some q := by
          rcases tMaxZ with _ | q
          · simp [optLt] at hbreak
          · exact ⟨q, rfl⟩
        have hsz : stepZ ≠ 0 := fun h0 => by simp [hmz.mpr h0] at hq
        simp only [hbreak, if_true, List.mem_cons] at he
        rcases he with rfl | he
        · obtain ⟨kz, hkz'⟩ := hkz
          refine ⟨?_, ?_, Or.inr (Or.inr ⟨rfl, hsz⟩)⟩
          · intro hcontra
            simp only [Prod.ext_iff] at hcontra
            have h1 : bz + stepZ = z0 := hcontra.2.2
            rw [hkz'] at h1
            have h2 : stepZ * ((kz : Int) + 1) = 0 := by ring_nf; ring_nf at h1
              <;> linarith
            exact mul_ne_zero hsz (by omega) h2
          · show tMaxZ.getD 0 < mdb
            rw [hq]
            simpa [optLt, hq] using hbreak
        · refine ih bx yv (bz + stepZ) tMaxX tMaxY (optAdd tMaxZ tDZ) tMaxZ
            hmx hmy ?_ hkx hky ?_ e he
          · constructor
            · intro hnone
              rcases htd : tDZ with _ | b
              · exact hdz.mp htd
              · rw [hq, htd] at hnone
                simp [optAdd] at hnone
            · intro h0
              exact absurd h0 hsz
          · obtain ⟨k, hk⟩ := hkz
            exact ⟨k + 1, by rw [hk]; push_cast; ring⟩

lemma stepOf_cases (q : ℚ) : stepOf q = 1 ∨ stepOf q = -1 ∨ stepOf q = 0 := by
  unfold stepOf
  split_ifs <;> simp

lemma ifNe_none_iff (q A : ℚ) :
    ((if q ≠ 0 then some A else (none : Option ℚ)) = none) ↔ stepOf q = 0 := by
  unfold stepOf
  split_ifs with h1 h2 h3 <;> simp_all
  exact h1 (le_antisymm h2 h3)

lemma ifSign_none_iff (q A B : ℚ) :
    ((if q > 0 then some A else if q < 0 then some B
      else (none : Option ℚ)) = none) ↔ stepOf q = 0 := by
  unfold stepOf
  split_ifs <;> simp

/-- **C4.** The DDA raycast, for every fuel bound on the loop: (i) it returns
exactly the first solid cell among the cells the traversal enters (the trace),
with the face normal opposite the step on the axis just advanced and distance
`t·blockSize`; (ii) every tested cell differs from the starting cell (the
start is never tested) and is entered at accumulated `t` strictly below
`maxDistance/blockSize`, on an axis whose step is nonzero; (iii)
`maxDistance = 0` returns no hit; (iv) consequently any hit is a solid cell
distinct from the start, its normal has exactly one component `±1`, and (for
positive block size) its distance is strictly below `maxDistance`. -/
theorem C4_raycast_dda :
    (∀ (fuel : Nat) (origin direction : ℚ × ℚ × ℚ) (w : World)
        (maxDistance : ℚ),
      raycast fuel origin direction w maxDistance
        = ((raycastTrace fuel origin direction w maxDistance).find?
            (fun e => w.isSolid e.1.1 e.1.2.1 e.1.2.2)).map
            (traceHit (stepOf direction.1) (stepOf direction.2.1)
              (stepOf direction.2.2) w.blockSize)) ∧
    (∀ (fuel : Nat) (origin direction : ℚ × ℚ × ℚ) (w : World)
        (maxDistance : ℚ),
      ∀ e ∈ raycastTrace fuel origin direction w maxDistance,
        e.1 ≠ (⌊origin.1 / w.blockSize⌋, ⌊origin.2.1 / w.blockSize⌋,
          ⌊origin.2.2 / w.blockSize⌋) ∧
        e.2.2 < maxDistance / w.blockSize ∧
        ((e.2.1 = 0 ∧ stepOf direction.1 ≠ 0) ∨
         (e.2.1 = 1 ∧ stepOf direction.2.1 ≠ 0) ∨
         (e.2.1 = 2 ∧ stepOf direction.2.2 ≠ 0))) ∧
    (∀ (fuel : Nat) (origin direction : ℚ × ℚ × ℚ) (w : World),
      raycast fuel origin direction w 0 = none) ∧
    (∀ (fuel : Nat) (origin direction : ℚ × ℚ × ℚ) (w : World)
        (maxDistance : ℚ) (h : RaycastHit),
      raycast fuel origin direction w maxDistance = some h →
      w.isSolid h.blockPos.1 h.blockPos.2.1 h.blockPos.2.2 = true ∧
      (h.faceNormal = (1, 0, 0) ∨ h.faceNormal = (-1, 0, 0) ∨
       h.faceNormal = (0, 1, 0) ∨ h.faceNormal = (0, -1, 0) ∨
       h.faceNormal = (0, 0, 1) ∨ h.faceNormal = (0, 0, -1)) ∧
      h.blockPos ≠ (⌊origin.1 / w.blockSize⌋, ⌊origin.2.1 / w.blockSize⌋,
        ⌊origin.2.2 / w.blockSize⌋) ∧
      (0 < w.blockSize → h.distance < maxDistance)) := by
  have main : ∀ (fuel : Nat) (origin direction : ℚ × ℚ × ℚ) (w : World)
      (maxDistance : ℚ),
      raycast fuel origin direction w maxDistance
        = ((raycastTrace fuel origin direction w maxDistance).find?
            (fun e => w.isSolid e.1.1 e.1.2.1 e.1.2.2)).map
            (traceHit (stepOf direction.1) (stepOf direction.2.1)
              (stepOf direction.2.2) w.blockSize) := by
    intro fuel origin direction w maxDistance
    exact rayLoop_eq_trace w (stepOf direction.1) (stepOf direction.2.1)
      (stepOf direction.2.2) _ _ _ _ fuel _ _ _ _ _ _ _
  have inv : ∀ (fuel : Nat) (origin direction : ℚ × ℚ × ℚ) (w : World)
      (maxDistance : ℚ),
      ∀ e ∈ raycastTrace fuel origin direction w maxDistance,
        e.1 ≠ (⌊origin.1 / w.blockSize⌋, ⌊origin.2.1 / w.blockSize⌋,
          ⌊origin.2.2 / w.blockSize⌋) ∧
        e.2.2 < maxDistance / w.blockSize ∧
        ((e.2.1 = 0 ∧ stepOf direction.1 ≠ 0) ∨
         (e.2.1 = 1 ∧ stepOf direction.2.1 ≠ 0) ∨
         (e.2.1 = 2 ∧ stepOf direction.2.2 ≠ 0)) := by
    intro fuel origin direction w maxDistance
    exact rayTrace_invariant w (stepOf direction.1) (stepOf direction.2.1)
      (stepOf direction.2.2) _ _ _ _
      ⌊origin.1 / w.blockSize⌋ ⌊origin.2.1 / w.blockSize⌋
      ⌊origin.2.2 / w.blockSize⌋
      (ifNe_none_iff direction.1 _) (ifNe_none_iff direction.2.1 _)
      (ifNe_none_iff direction.2.2 _)
      fuel _ _ _ _ _ _ _
      (ifSign_none_iff direction.1 _ _) (ifSign_none_iff direction.2.1 _ _)
      (ifSign_none_iff direction.2.2 _ _)
      ⟨0, by simp⟩ ⟨0, by simp⟩ ⟨0, by simp⟩
  refine ⟨main, inv, ?_, ?_⟩
  · intro fuel origin direction w
    cases fuel with
    | zero => rfl
    | succ fuel =>
      show rayLoop _ _ _ _ _ _ _ _ _ _ _ _ _ _ _ _ = none
      unfold rayLoop
      have : optLt (some 0) (some (0 / w.blockSize)) = false := by
        simp [optLt]
      rw [this]
      simp
  · intro fuel origin direction w maxDistance h hsome
    rw [main fuel origin direction w maxDistance] at hsome
    rw [Option.map_eq_some'] at hsome
    obtain ⟨e, hfind, heq⟩ := hsome
    have hmem := List.mem_of_find?_eq_some hfind
    have hp := List.find?_some hfind
    obtain ⟨hne, hdist, haxis⟩ := inv fuel origin direction w maxDistance e
      hmem
    subst heq
    refine ⟨by simpa using hp, ?_, hne, fun hbs => ?_⟩
    · rcases haxis with ⟨ha, hs⟩ | ⟨ha, hs⟩ | ⟨ha, hs⟩
      · rcases stepOf_cases direction.1 with h1 | h1 | h1
        · exact Or.inr (Or.inl (by simp [traceHit, ha, normalOf, h1]))
        · exact Or.inl (by simp [traceHit, ha, normalOf, h1])
        · exact absurd h1 hs
      · rcases stepOf_cases direction.2.1 with h1 | h1 | h1
        · exact Or.inr (Or.inr (Or.inr (Or.inl
            (by simp [traceHit, ha, normalOf, h1]))))
        · exact Or.inr (Or.inr (Or.inl (by simp [traceHit, ha, normalOf, h1])))
        · exact absurd h1 hs
      · rcases stepOf_cases direction.2.2 with h1 | h1 | h1
        · exact Or.inr (Or.inr (Or.inr (Or.inr (Or.inr
            (by simp [traceHit, ha, normalOf, h1])))))
        · exact Or.inr (Or.inr (Or.inr (Or.inr (Or.inl
            (by simp [traceHit, ha, normalOf, h1])))))
        · exact absurd h1 hs
    · show e.2.2 * w.blockSize < maxDistance
      exact (lt_div_iff₀ hbs).mp hdist

/-- **C4 witness.** A concrete ray: from `(3/2, 1/2, 1/2)` toward `(-1,0,0)`
in the sample 2×2×2 world (marble at cell `(0,0,0)`), the raycast hits cell
`(0,0,0)` through the `+X` face at distance `1/2`; and a zero `maxDistance`
returns no hit. -/
theorem C4_raycast_dda_witness :
    (raycast 5 ((3 : ℚ)/2, 1/2, 1/2) (-1, 0, 0) sampleWorld 10).isSome = true ∧
    (∀ h : RaycastHit,
      raycast 5 ((3 : ℚ)/2, 1/2, 1/2) (-1, 0, 0) sampleWorld 10 = some h →
      sampleWorld.isSolid h.blockPos.1 h.blockPos.2.1 h.blockPos.2.2 = true) ∧
    raycast 5 ((3 : ℚ)/2, 1/2, 1/2) (-1, 0, 0) sampleWorld 0 = none := by
  refine ⟨by with_unfolding_all decide, fun h hsome =>
    (C4_raycast_dda.2.2.2 5 ((3 : ℚ)/2, 1/2, 1/2) (-1, 0, 0) sampleWorld 10 h
      hsome).1,
    C4_raycast_dda.2.2.1 5 ((3 : ℚ)/2, 1/2, 1/2) (-1, 0, 0) sampleWorld⟩

/-- **C6 (code divergence).** The code's UV assignment is quad-relative, not
world-aligned: the +Y quad over cell `(1,1,1)` of the single-cell 3×3×3 grid
gets corner UVs `(0,1), (1,1), (1,0), (0,0)` regardless of its world
position, and no texture-scale factor makes the emitted UVs equal the
absolute world position divided by that factor (corner `v0` would need
`0 = 1/scale` and `1 = 1/scale` simultaneously).  The repository's own design
notes state the world-aligned rule; the code implements the quad-relative
one. -/
theorem C6_uv_divergence :
    quadY ∈ greedyMeshQuads singleGridB d333 1 ∧
    quadUVs quadY = ((0, 1), (1, 1), (1, 0), (0, 0)) ∧
    ∀ scale : ℚ, ¬ uvWorldAligned scale singleGridB d333 1 := by
  have hmem : quadY ∈ greedyMeshQuads singleGridB d333 1 := by
    with_unfolding_all decide
  have huv : quadUVs quadY = ((0, 1), (1, 1), (1, 0), (0, 0)) := by
    with_unfolding_all decide
  refine ⟨hmem, huv, fun scale h => ?_⟩
  have heq := h quadY hmem
  have e1 : (quadUVs quadY).1.1 = 0 := by rw [huv]
  have e2 : (quadUVs quadY).1.2 = 1 := by rw [huv]
  have f1 : (quadUVs quadY).1.1 = (specWorldUV scale quadY.axis quadY.v0).1 := by
    rw [heq]
  have f2 : (quadUVs quadY).1.2 = (specWorldUV scale quadY.axis quadY.v0).2 := by
    rw [heq]
  have g1 : (specWorldUV scale quadY.axis quadY.v0).1 = 1 / scale := by
    show (specWorldUV scale 1 (1, 2, 1)).1 = 1 / scale
    norm_num [specWorldUV, posComp]
  have g2 : (specWorldUV scale quadY.axis quadY.v0).2 = 1 / scale := by
    show (specWorldUV scale 1 (1, 2, 1)).2 = 1 / scale
    norm_num [specWorldUV, posComp]
  have h0 : (0 : ℚ) = 1 / scale := by rw [← g1, ← f1, e1]
  have h1 : (1 : ℚ) = 1 / scale := by rw [← g2, ← f2, e2]
  exact absurd (h0.trans h1.symm) (by norm_num)

/-- **C6 witness.** The divergence applied at texture scale 1. -/
theorem C6_uv_divergence_witness : ¬ uvWorldAligned 1 singleGridB d333 1 :=
  C6_uv_divergence.2.2 1

/-- **C7.** `vertexAO` is 0 when both edge neighbors are solid, otherwise
`3 − (solid count)`; it is bounded by 3 and symmetric under the corner-fixing
90° rotation that swaps the two edge neighbors.  `computeFaceAO` applies it,
for each of the four corners, to the two edge-adjacent samples and the one
diagonal sample, all taken on the `airD` plane (the air side of the face),
shown here for the three axis configurations the mesher uses. -/
theorem C7_ambient_occlusion :
    (∀ s1 s2 c : Bool,
      vertexAO s1 s2 c ≤ 3 ∧
      (s1 = true → s2 = true → vertexAO s1 s2 c = 0) ∧
      (¬ (s1 = true ∧ s2 = true) →
        vertexAO s1 s2 c = 3 - ((if s1 then 1 else 0) + (if s2 then 1 else 0)
          + (if c then 1 else 0))) ∧
      vertexAO s1 s2 c = vertexAO s2 s1 c) ∧
    (∀ (b : BlockArray) (d : Dims) (fU fV airD : Int),
      (computeFaceAO b d fU fV airD 0 1 2 =
        (vertexAO (isSolidB (meshGetBlock b d airD (fU + -1) fV))
          (isSolidB (meshGetBlock b d airD fU (fV + -1)))
          (isSolidB (meshGetBlock b d airD (fU + -1) (fV + -1))),
         vertexAO (isSolidB (meshGetBlock b d airD (fU + 1) fV))
          (isSolidB (meshGetBlock b d airD fU (fV + -1)))
          (isSolidB (meshGetBlock b d airD (fU + 1) (fV + -1))),
         vertexAO (isSolidB (meshGetBlock b d airD (fU + 1) fV))
          (isSolidB (meshGetBlock b d airD fU (fV + 1)))
          (isSolidB (meshGetBlock b d airD (fU + 1) (fV + 1))),
         vertexAO (isSolidB (meshGetBlock b d airD (fU + -1) fV))
          (isSolidB (meshGetBlock b d airD fU (fV + 1)))
          (isSolidB (meshGetBlock b d airD (fU + -1) (fV + 1))))) ∧
      (computeFaceAO b d fU fV airD 1 2 0 =
        (vertexAO (isSolidB (meshGetBlock b d fV airD (fU + -1)))
          (isSolidB (meshGetBlock b d (fV + -1) airD fU))
          (isSolidB (meshGetBlock b d (fV + -1) airD (fU + -1))),
         vertexAO (isSolidB (meshGetBlock b d fV airD (fU + 1)))
          (isSolidB (meshGetBlock b d (fV + -1) airD fU))
          (isSolidB (meshGetBlock b d (fV + -1) airD (fU + 1))),
         vertexAO (isSolidB (meshGetBlock b d fV airD (fU + 1)))
          (isSolidB (meshGetBlock b d (fV + 1) airD fU))
          (isSolidB (meshGetBlock b d (fV + 1) airD (fU + 1))),
         vertexAO (isSolidB (meshGetBlock b d fV airD (fU + -1)))
          (isSolidB (meshGetBlock b d (fV + 1) airD fU))
          (isSolidB (meshGetBlock b d (fV + 1) airD (fU + -1))))) ∧
      (computeFaceAO b d fU fV airD 2 0 1 =
        (vertexAO (isSolidB (meshGetBlock b d (fU + -1) fV airD))
          (isSolidB (meshGetBlock b d fU (fV + -1) airD))
          (isSolidB (meshGetBlock b d (fU + -1) (fV + -1) airD)),
         vertexAO (isSolidB (meshGetBlock b d (fU + 1) fV airD))
          (isSolidB (meshGetBlock b d fU (fV + -1) airD))
          (isSolidB (meshGetBlock b d (fU + 1) (fV + -1) airD)),
         vertexAO (isSolidB (meshGetBlock b d (fU + 1) fV airD))
          (isSolidB (meshGetBlock b d fU (fV + 1) airD))
          (isSolidB (meshGetBlock b d (fU + 1) (fV + 1) airD)),
         vertexAO (isSolidB (meshGetBlock b d (fU + -1) fV airD))
          (isSolidB (meshGetBlock b d fU (fV + 1) airD))
          (isSolidB (meshGetBlock b d (fU + -1) (fV + 1) airD))))) := by
  refine ⟨by decide, fun b d fU fV airD => ⟨rfl, rfl, rfl⟩⟩

/-- **C7 witness.** The `vertexAO` facts applied at concrete booleans. -/
theorem C7_ambient_occlusion_witness :
    vertexAO true true true = 0 ∧ vertexAO true false true = 1 ∧
    vertexAO false true false = vertexAO true false false := by
  refine ⟨(C7_ambient_occlusion.1 true true true).2.1 rfl rfl,
    ?_, (C7_ambient_occlusion.1 false true false).2.2.2⟩
  have h := (C7_ambient_occlusion.1 true false true).2.2.1 (by simp)
  simpa using h

/-- **C10 witness.** Frame property evaluated on a concrete world. -/
theorem C10_setBlock_frame_witness :
    ((sampleWorld.setBlock 1 1 1 7).2).getBlock 1 1 1 = 7 ∧
    ((sampleWorld.setBlock 1 1 1 7).2).getBlock 0 0 0 = sampleWorld.getBlock 0 0 0 ∧
    (sampleWorld.setBlock 5 0 0 7).2 = sampleWorld := by
  refine ⟨((C10_setBlock_frame sampleWorld 1 1 1 7).1 (by decide) (by decide)
      (by decide)).2.1,
    ((C10_setBlock_frame sampleWorld 1 1 1 7).1 (by decide) (by decide)
      (by decide)).2.2 0 0 0 (by decide),
    (C10_setBlock_frame sampleWorld 5 0 0 7).2 (by decide)⟩

end Voxel
